import Mathlib

set_option maxRecDepth 100000

/-!
Shallow embedding of `src/dex_parser.py` (DexParser, a reader for the DEX
binary container format) together with spec-level definitions, and theorems
checking the specification's claims against the code.

Byte buffers are modelled as `List Nat` (each element intended `< 256`;
hypotheses state this where a proof needs it).  Python slices `data[a:b]`
become `pySlice data a b`, `int.from_bytes(_, "little")` becomes `fromBytesLE`,
and code that can raise is modelled in `Except PyError`.
-/

/- Python exceptions raised by the parser.  `badDexFile` is the module's own
`BadDexFileError` (the spec's `StructuralError`); `indexError` is a Python
`IndexError` from an out-of-range list subscript (the spec's
`ReferenceError`); `valueError` is a `ValueError` from an enum lookup;
`unicodeDecodeError` is a failed `bytes.decode("utf8")`; `attributeError` is
an attribute lookup/assignment failure (missing method or slot). -/
inductive PyError where
  | badDexFile (msg : String) : PyError
  | indexError : PyError
  | valueError : PyError
  | unicodeDecodeError : PyError
  | attributeError : PyError
deriving Repr, DecidableEq

/- Python `data[a:b]` on bytes: elements at positions `a ≤ i < b`, truncated
at the end of the buffer, empty when `b ≤ a` or `a ≥ length`. -/
def pySlice (l : List Nat) (a b : Nat) : List Nat :=
  (l.drop a).take (b - a)

/- Python `int.from_bytes(l, "little")`: the value `Σ l[i] * 256^i`
(0 on the empty pySlice). -/
def fromBytesLE (l : List Nat) : Nat :=
  l.foldr (fun b acc => b + 256 * acc) 0

/- Python `int.from_bytes(l, "little", signed=True)`: two's-complement. -/
def fromBytesLESigned (l : List Nat) : Int :=
  let n := fromBytesLE l
  if 2 * n < 2 ^ (8 * l.length) then (n : Int) else (n : Int) - 2 ^ (8 * l.length)

def resOk {α : Type} (e : Except PyError α) : Bool :=
  match e with
  | .ok _ => true
  | .error _ => false

def resErr {α : Type} (e : Except PyError α) : Bool :=
  match e with
  | .ok _ => false
  | .error _ => true

/- `zlib.adler32`: running pair (s1, s2) mod 65521, result `s2 << 16 | s1`,
starting value 1 (s1 = 1, s2 = 0). -/
def adlerStep (p : Nat × Nat) (b : Nat) : Nat × Nat :=
  ((p.1 + b) % 65521, (p.2 + ((p.1 + b) % 65521)) % 65521)

def adler32 (l : List Nat) : Nat :=
  let p := l.foldl adlerStep (1, 0)
  (p.2 <<< 16) ||| p.1

/- SHA-1 (`hashlib.sha1(_).digest()`), on byte lists, 20-byte digest. -/
def rotl32 (x n : Nat) : Nat :=
  ((x <<< n) % 4294967296) ||| (x >>> (32 - n))

def beBytes32 (x : Nat) : List Nat :=
  [x / 16777216 % 256, x / 65536 % 256, x / 256 % 256, x % 256]

def beBytes64 (x : Nat) : List Nat :=
  beBytes32 (x / 4294967296) ++ beBytes32 (x % 4294967296)

def fromBytesBE (l : List Nat) : Nat :=
  l.foldl (fun acc b => acc * 256 + b) 0

def sha1Pad (msg : List Nat) : List Nat :=
  msg ++ [0x80] ++ List.replicate ((119 - msg.length % 64) % 64) 0
      ++ beBytes64 (8 * msg.length)

def sha1W (chunk : List Nat) : List Nat :=
  let w0 := (List.range 16).map (fun i => fromBytesBE (pySlice chunk (4 * i) (4 * i + 4)))
  (List.range 64).foldl (fun w i =>
    w ++ [rotl32 ((w.getD (i + 13) 0) ^^^ (w.getD (i + 8) 0) ^^^ (w.getD (i + 2) 0) ^^^ (w.getD i 0)) 1]) w0

def sha1F (i b c d : Nat) : Nat :=
  if i < 20 then (b &&& c) ||| ((b ^^^ 4294967295) &&& d)
  else if i < 40 then b ^^^ c ^^^ d
  else if i < 60 then (b &&& c) ||| (b &&& d) ||| (c &&& d)
  else b ^^^ c ^^^ d

def sha1K (i : Nat) : Nat :=
  if i < 20 then 0x5A827999
  else if i < 40 then 0x6ED9EBA1
  else if i < 60 then 0x8F1BBCDC
  else 0xCA62C1D6

def sha1Chunk (h : Nat × Nat × Nat × Nat × Nat) (chunk : List Nat) :
    Nat × Nat × Nat × Nat × Nat :=
  let w := sha1W chunk
  match h with
  | (h0, h1, h2, h3, h4) =>
    let s := (List.range 80).foldl (fun s i =>
      match s with
      | (a, b, c, d, e) =>
        ((rotl32 a 5 + sha1F i b c d + e + sha1K i + w.getD i 0) % 4294967296,
         a, rotl32 b 30, c, d)) (h0, h1, h2, h3, h4)
    match s with
    | (a, b, c, d, e) =>
      ((h0 + a) % 4294967296, (h1 + b) % 4294967296, (h2 + c) % 4294967296,
       (h3 + d) % 4294967296, (h4 + e) % 4294967296)

def chunks64Go : Nat → List Nat → List (List Nat)
  | 0, _ => []
  | fuel + 1, l => if l.length = 0 then [] else l.take 64 :: chunks64Go fuel (l.drop 64)

def chunks64 (l : List Nat) : List (List Nat) :=
  chunks64Go l.length l

def sha1 (msg : List Nat) : List Nat :=
  let f := (chunks64 (sha1Pad msg)).foldl sha1Chunk
    (0x67452301, 0xEFCDAB89, 0x98BADCFE, 0x10325476, 0xC3D2E1F0)
  match f with
  | (h0, h1, h2, h3, h4) =>
    beBytes32 h0 ++ beBytes32 h1 ++ beBytes32 h2 ++ beBytes32 h3 ++ beBytes32 h4

/- Python `bytes.decode("utf8")`: strict UTF-8, rejecting overlong forms,
surrogates and code points above U+10FFFF; yields the code points. -/
def isCont (b : Nat) : Bool := 0x80 ≤ b && b < 0xC0

def utf8Decode : List Nat → Option (List Nat)
  | [] => some []
  | b :: rest =>
    if b < 0x80 then (utf8Decode rest).map (fun t => b :: t)
    else if b < 0xC2 then none
    else if b < 0xE0 then
      match rest with
      | c1 :: r =>
        if isCont c1 then
          (utf8Decode r).map (fun t => ((b - 0xC0) * 0x40 + (c1 - 0x80)) :: t)
        else none
      | [] => none
    else if b < 0xF0 then
      match rest with
      | c1 :: c2 :: r =>
        if (if b = 0xE0 then decide (0xA0 ≤ c1) && decide (c1 < 0xC0)
            else if b = 0xED then decide (0x80 ≤ c1) && decide (c1 < 0xA0)
            else isCont c1) && isCont c2 then
          (utf8Decode r).map (fun t =>
            ((b - 0xE0) * 0x1000 + (c1 - 0x80) * 0x40 + (c2 - 0x80)) :: t)
        else none
      | _ => none
    else if b < 0xF5 then
      match rest with
      | c1 :: c2 :: c3 :: r =>
        if (if b = 0xF0 then decide (0x90 ≤ c1) && decide (c1 < 0xC0)
            else if b = 0xF4 then decide (0x80 ≤ c1) && decide (c1 < 0x90)
            else isCont c1) && isCont c2 && isCont c3 then
          (utf8Decode r).map (fun t =>
            ((b - 0xF0) * 0x40000 + (c1 - 0x80) * 0x1000 + (c2 - 0x80) * 0x40 + (c3 - 0x80)) :: t)
        else none
      | _ => none
    else none

/- Module-level constants of `dex_parser.py`. -/
def MAGIC : List Nat := [0x64, 0x65, 0x78, 0x0a]

def ENDIAN_CONSTANT : Nat := 0x12345678

def REVERSE_ENDIAN_CONSTANT : Nat := 0x78563412

def NO_INDEX : Nat := 0xffffffff

/- Error-message constants (the source interpolates the offending values into
these messages; the text here keeps the fixed part). -/
def msgBadMagic : String := "Bad magic: should start with 6465780a"

def msgBadByte7 : String := "Bad magic: 7th byte should be 00"

def msgBadChecksum : String := "Checksum mismatch"

def msgBadSignature : String := "SHA1 signature mismatch"

def msgBadFileSize : String := "File size mismatch"

def msgBadHeaderSize : String := "Header size mismatch"

def msgBadEndian : String := "Bad endian constant"

def msgUleb : String := "Uleb128 must be 5 bytes max"

/- `Uleb128`: `data` is the consumed bytes (`self.data`), `size` the number of
bytes consumed (`self._size`). -/
structure Uleb where
  data : List Nat
  size : Nat
deriving Repr, DecidableEq

/- The scan loop of `Uleb128.__init__`: walk the bytes with their index; a
byte with the high bit clear stops the scan at `idx + 1` consumed bytes;
reaching index 4 with the high bit still set raises; if the input ends
first, `size` keeps its initial value 0. -/
def ulebScan : List Nat → Nat → Except PyError Nat
  | [], _ => .ok 0
  | b :: rest, idx =>
    if b &&& 0x80 = 0 then .ok (idx + 1)
    else if idx = 4 then .error (.badDexFile msgUleb)
    else ulebScan rest (idx + 1)

def uleb128 (d : List Nat) : Except PyError Uleb :=
  (ulebScan d 0).map (fun s => { data := d.take s, size := s })

/- `Uleb128.__int__`: fold the consumed bytes from the last to the first,
`value = (value << 7) | (b & 0x7f)`. -/
def ulebInt (u : Uleb) : Nat :=
  u.data.foldr (fun b v => (v <<< 7) ||| (b &&& 0x7f)) 0

def HEADER_SIZE : Nat := 112

/- `HeaderItem`: the fields assigned by `HeaderItem.__init__` (the
`header_size` slot is declared but never assigned, so it is omitted;
`version` holds the code points of the decoded version string). -/
structure HeaderItem where
  version : List Nat
  checksum : Nat
  signature : List Nat
  file_size : Nat
  endianness : String
  link_size : Nat
  link_off : Nat
  map_off : Nat
  string_ids_size : Nat
  string_ids_off : Nat
  type_ids_size : Nat
  type_ids_off : Nat
  proto_ids_size : Nat
  proto_ids_off : Nat
  field_ids_size : Nat
  field_ids_off : Nat
  method_ids_size : Nat
  method_ids_off : Nat
  class_defs_size : Nat
  class_defs_off : Nat
  data_size : Nat
  data_off : Nat
deriving Repr, DecidableEq

/- `HeaderItem.__init__`: magic, version decode, zero padding byte, adler32
checksum, SHA-1 signature, declared file size, declared header size and
endian tag, in the source's order, then the verbatim table descriptors. -/
def headerItem (data : List Nat) : Except PyError HeaderItem :=
  if pySlice data 0 4 ≠ MAGIC then .error (.badDexFile msgBadMagic)
  else
    match utf8Decode (pySlice data 4 7) with
    | none => .error .unicodeDecodeError
    | some version =>
      match data[7]? with
      | none => .error .indexError
      | some b7 =>
        if b7 ≠ 0 then .error (.badDexFile msgBadByte7)
        else
          let checksum := adler32 (data.drop 12)
          let expected_checksum := fromBytesLE (pySlice data 8 12)
          if checksum ≠ expected_checksum then .error (.badDexFile msgBadChecksum)
          else
            let signature := sha1 (data.drop 32)
            if signature ≠ pySlice data 12 32 then .error (.badDexFile msgBadSignature)
            else
              let file_size := data.length
              if file_size ≠ fromBytesLE (pySlice data 32 36) then
                .error (.badDexFile msgBadFileSize)
              else if fromBytesLE (pySlice data 36 40) ≠ HEADER_SIZE then
                .error (.badDexFile msgBadHeaderSize)
              else
                let endian_tag := fromBytesLE (pySlice data 40 44)
                if endian_tag = ENDIAN_CONSTANT ∨ endian_tag = REVERSE_ENDIAN_CONSTANT then
                  .ok { version, checksum, signature, file_size,
                        endianness := if endian_tag = ENDIAN_CONSTANT then "big" else "little",
                        link_size := fromBytesLE (pySlice data 44 48),
                        link_off := fromBytesLE (pySlice data 48 52),
                        map_off := fromBytesLE (pySlice data 52 56),
                        string_ids_size := fromBytesLE (pySlice data 56 60),
                        string_ids_off := fromBytesLE (pySlice data 60 64),
                        type_ids_size := fromBytesLE (pySlice data 64 68),
                        type_ids_off := fromBytesLE (pySlice data 68 72),
                        proto_ids_size := fromBytesLE (pySlice data 72 76),
                        proto_ids_off := fromBytesLE (pySlice data 76 80),
                        field_ids_size := fromBytesLE (pySlice data 80 84),
                        field_ids_off := fromBytesLE (pySlice data 84 88),
                        method_ids_size := fromBytesLE (pySlice data 88 92),
                        method_ids_off := fromBytesLE (pySlice data 92 96),
                        class_defs_size := fromBytesLE (pySlice data 96 100),
                        class_defs_off := fromBytesLE (pySlice data 100 104),
                        data_size := fromBytesLE (pySlice data 104 108),
                        data_off := fromBytesLE (pySlice data 108 112) }
                else .error (.badDexFile msgBadEndian)

/- `TypeCode`: the values of the enumeration; `MapItem.__init__` rejects any
other 16-bit value with a `ValueError`. -/
def typeCodeValues : List Nat :=
  [0x0000, 0x0001, 0x0002, 0x0003, 0x0004, 0x0005, 0x0006, 0x0007, 0x0008,
   0x1000, 0x1001, 0x1002, 0x1003,
   0x2000, 0x2001, 0x2002, 0x2003, 0x2004, 0x2005, 0x2006, 0xF000]

structure MapItem where
  type_ : Nat
  unused : Nat
  size : Nat
  offset : Nat
deriving Repr, DecidableEq

def mapItem (data : List Nat) : Except PyError MapItem :=
  let t := fromBytesLE (pySlice data 0 2)
  if t ∈ typeCodeValues then
    .ok { type_ := t,
          unused := fromBytesLE (pySlice data 2 4),
          size := fromBytesLE (pySlice data 4 8),
          offset := fromBytesLE (pySlice data 8 12) }
  else .error .valueError

structure MapList where
  size : Nat
  list : List MapItem
deriving Repr, DecidableEq

def mapList (data : List Nat) : Except PyError MapList := do
  let size := fromBytesLE (pySlice data 0 4)
  let items ← (List.range size).mapM
    (fun i => mapItem (pySlice data (4 + 12 * i) (4 + 12 * i + 12)))
  pure { size, list := items }

/- `StringDataItem`: reads a single length byte, then decodes
`data[1 : 1 + utf16size]` as UTF-8 (`data` holds the code points). -/
structure StringDataItem where
  utf16size : Nat
  data : List Nat
deriving Repr, DecidableEq

def stringDataItem (data : List Nat) : Except PyError StringDataItem :=
  let utf16size := fromBytesLE (pySlice data 0 1)
  match utf8Decode (pySlice data 1 (1 + utf16size)) with
  | none => .error .unicodeDecodeError
  | some s => .ok { utf16size, data := s }

structure StringIdItem where
  string_data_off : Nat
deriving Repr, DecidableEq

def stringIdItem (data : List Nat) : StringIdItem :=
  { string_data_off := fromBytesLE data }

def StringIdItem.get_string_data_item (s : StringIdItem) (data : List Nat) :
    Except PyError StringDataItem :=
  stringDataItem (data.drop s.string_data_off)

structure TypeIdItem where
  descriptor_idx : Nat
deriving Repr, DecidableEq

def typeIdItem (data : List Nat) : TypeIdItem :=
  { descriptor_idx := fromBytesLE data }

/- `TypeIdItem.get_string_id_item`: plain list subscript; a Python
`IndexError` models an out-of-range index. -/
def TypeIdItem.get_string_id_item (t : TypeIdItem) (string_ids : List StringIdItem) :
    Except PyError StringIdItem :=
  if h : t.descriptor_idx < string_ids.length then .ok string_ids[t.descriptor_idx]
  else .error .indexError

structure TypeItem where
  type_idx : Nat
deriving Repr, DecidableEq

def typeItem (data : List Nat) : TypeItem :=
  { type_idx := fromBytesLE data }

def TypeItem.get_type_type_id_item (t : TypeItem) (type_ids : List TypeIdItem) :
    Except PyError TypeIdItem :=
  if h : t.type_idx < type_ids.length then .ok type_ids[t.type_idx]
  else .error .indexError

structure TypeList where
  size : Nat
  list : List TypeItem
deriving Repr, DecidableEq

def typeList (data : List Nat) : TypeList :=
  let size := fromBytesLE (pySlice data 0 4)
  { size,
    list := (List.range size).map
      (fun i => typeItem (pySlice data (4 + 2 * i) (4 + 2 * i + 2))) }

structure ProtoIdItem where
  shorty_idx : Nat
  return_type_idx : Nat
  parameters_off : Nat
deriving Repr, DecidableEq

def protoIdItem (data : List Nat) : ProtoIdItem :=
  { shorty_idx := fromBytesLE (pySlice data 0 4),
    return_type_idx := fromBytesLE (pySlice data 4 8),
    parameters_off := fromBytesLE (pySlice data 8 12) }

def ProtoIdItem.get_shorty_string_id_item (p : ProtoIdItem) (string_ids : List StringIdItem) :
    Except PyError StringIdItem :=
  if h : p.shorty_idx < string_ids.length then .ok string_ids[p.shorty_idx]
  else .error .indexError

def ProtoIdItem.get_return_type_type_id_item (p : ProtoIdItem) (type_ids : List TypeIdItem) :
    Except PyError TypeIdItem :=
  if h : p.return_type_idx < type_ids.length then .ok type_ids[p.return_type_idx]
  else .error .indexError

/- `ProtoIdItem.get_parameters`: a zero offset yields `TypeList(bytes(4))`,
i.e. the list decoded from four zero bytes. -/
def ProtoIdItem.get_parameters (p : ProtoIdItem) (data : List Nat) : TypeList :=
  if p.parameters_off = 0x00 then typeList (List.replicate 4 0)
  else typeList (data.drop p.parameters_off)

structure FieldIdItem where
  class_idx : Nat
  type_idx : Nat
  name_idx : Nat
deriving Repr, DecidableEq

def fieldIdItem (data : List Nat) : FieldIdItem :=
  { class_idx := fromBytesLE (pySlice data 0 2),
    type_idx := fromBytesLE (pySlice data 2 4),
    name_idx := fromBytesLE (pySlice data 4 8) }

structure MethodIdItem where
  class_idx : Nat
  proto_idx : Nat
  name_idx : Nat
deriving Repr, DecidableEq

def methodIdItem (data : List Nat) : MethodIdItem :=
  { class_idx := fromBytesLE (pySlice data 0 2),
    proto_idx := fromBytesLE (pySlice data 2 4),
    name_idx := fromBytesLE (pySlice data 4 8) }

/- `ValueFormat`: the values of the enumeration; any other low-5-bit tag
raises a `ValueError`. -/
def valueFormatValues : List Nat :=
  [0x00, 0x02, 0x03, 0x04, 0x06, 0x10, 0x11, 0x15, 0x16, 0x17, 0x18, 0x19,
   0x1a, 0x1b, 0x1c, 0x1d, 0x1e, 0x1f]

def msgValueArgByte : String := "Value arg for BYTE should be 0"

/- `EncodedValue`: `value` is `some _` only when the format branch actually
assigns `self.value` (only the `VALUE_BYTE` branch does; the others leave
the slot unset). -/
structure EncodedValue where
  value_type : Nat
  value_arg : Nat
  value : Option Int
deriving Repr, DecidableEq

/- `EncodedValue.__init__`.  The source computes
`self.value_arg = (data[0] & 0xe0 >> 5)`; Python's `>>` binds tighter than
`&`, so this is `data[0] & (0xe0 >> 5) = data[0] & 7`, reproduced verbatim
here.  The `VALUE_SHORT` branch computes a local `size = value_arg + 1` and
assigns nothing. -/
def encodedValue (data : List Nat) : Except PyError EncodedValue :=
  match data[0]? with
  | none => .error .indexError
  | some b0 =>
    let vt := b0 &&& 0x1f
    if vt ∈ valueFormatValues then
      let value_arg := b0 &&& (0xe0 >>> 5)
      if vt = 0x00 then
        if value_arg ≠ 0 then .error (.badDexFile msgValueArgByte)
        else .ok { value_type := vt, value_arg,
                   value := some (fromBytesLESigned (pySlice data 1 2)) }
      else
        .ok { value_type := vt, value_arg, value := none }
    else .error .valueError

/- `EncodedAnnotation` of the source (renamed here): `type_idx`, `size` and
`elements` as declared by its `__slots__`. -/
structure EncodedAnnotationData where
  type_idx : Uleb
  size : Uleb
deriving Repr, DecidableEq

structure AnnotationElement where
  name_idx : Uleb
  value : EncodedValue
deriving Repr, DecidableEq

/- `AnnotationElement.__init__` parses `name_idx` and then calls
`self.name_idx.get_bytes()`; `Uleb128` defines no `get_bytes` method, so the
call raises an `AttributeError` unconditionally. -/
def annotationElement (data : List Nat) : Except PyError AnnotationElement := do
  let _name_idx ← uleb128 data
  .error .attributeError

/- `EncodedAnnotation.__init__` parses `type_idx` and then calls
`self.type_idx.get_bytes()`; `Uleb128` defines no `get_bytes` method, so the
call raises an `AttributeError` unconditionally. -/
def encodedAnnotationData (data : List Nat) : Except PyError EncodedAnnotationData := do
  let _type_idx ← uleb128 data
  .error .attributeError

/- `Visibility`: the three declared members all share the value 0x00. -/
def visibilityValues : List Nat := [0x00]

structure AnnotationItem where
  visibility : Nat
  annot : EncodedAnnotationData
deriving Repr, DecidableEq

def annotationItem (data : List Nat) : Except PyError AnnotationItem := do
  let v := fromBytesLE (pySlice data 0 1)
  if v ∈ visibilityValues then do
    let a ← encodedAnnotationData (data.drop 1)
    pure { visibility := v, annot := a }
  else .error .valueError

structure AnnotationOffItem where
  annotation_off : Nat
deriving Repr, DecidableEq

/- `AnnotationOffItem.__init__` computes the 4-byte value and then assigns
`self.annotations_off`, which is not among the declared `__slots__`
(`("annotation_off",)`): the assignment raises an `AttributeError`. -/
def annotationOffItem (data : List Nat) : Except PyError AnnotationOffItem :=
  let _v := fromBytesLE (pySlice data 0 4)
  .error .attributeError

structure AnnotationSetItem where
  size : Nat
  entries : List AnnotationOffItem
deriving Repr, DecidableEq

def annotationSetItem (data : List Nat) : Except PyError AnnotationSetItem := do
  let size := fromBytesLE (pySlice data 0 4)
  let entries ← (List.range size).mapM
    (fun i => annotationOffItem (pySlice data (4 + 4 * i) (4 + 4 * i + 4)))
  pure { size, entries }

/- `FieldAnnotation` of the source (renamed here). -/
structure FieldAnnotationRec where
  field_idx : Nat
  annotations_off : Nat
deriving Repr, DecidableEq

def fieldAnnotationRec (data : List Nat) : FieldAnnotationRec :=
  { field_idx := fromBytesLE (pySlice data 0 4),
    annotations_off := fromBytesLE (pySlice data 4 8) }

/-- Modelled from the spec: the source's `AnnotationDirectoryItem.__init__`
calls `MethodAnnotation`, which is defined nowhere in the repository; §4.7 of
the specification defines the per-method entry as a
`(member_index, annotation_set_offset)` pair structurally identical to the
per-field entry. -/
structure MethodAnnotationRec where
  method_idx : Nat
  annotations_off : Nat
deriving Repr, DecidableEq

/-- Modelled from the spec: the per-method annotation record, read as two
little-endian 32-bit fields like the per-field entry. -/
def methodAnnotationRec (data : List Nat) : MethodAnnotationRec :=
  { method_idx := fromBytesLE (pySlice data 0 4),
    annotations_off := fromBytesLE (pySlice data 4 8) }

/-- Modelled from the spec: the source's `AnnotationDirectoryItem.__init__`
calls `ParameterAnnotation`, which is defined nowhere in the repository; §4.7
of the specification defines the per-parameter entry as a
`(member_index, annotation_set_offset)` pair structurally identical to the
per-field entry. -/
structure ParameterAnnotationRec where
  method_idx : Nat
  annotations_off : Nat
deriving Repr, DecidableEq

/-- Modelled from the spec: the per-parameter annotation record, read as two
little-endian 32-bit fields like the per-field entry. -/
def parameterAnnotationRec (data : List Nat) : ParameterAnnotationRec :=
  { method_idx := fromBytesLE (pySlice data 0 4),
    annotations_off := fromBytesLE (pySlice data 4 8) }

structure AnnotationDirectoryItem where
  class_annotations_off : Nat
  fields_size : Nat
  annoted_methods_size : Nat
  annoted_parameters_size : Nat
  field_annotations : List FieldAnnotationRec
  method_annotations : List MethodAnnotationRec
  parameter_annotations : List ParameterAnnotationRec
deriving Repr, DecidableEq

def annotationDirectoryItem (data : List Nat) : AnnotationDirectoryItem :=
  let class_annotations_off := fromBytesLE (pySlice data 0 4)
  let fields_size := fromBytesLE (pySlice data 4 8)
  let annoted_methods_size := fromBytesLE (pySlice data 8 12)
  let annoted_parameters_size := fromBytesLE (pySlice data 12 16)
  let field_annotations := (List.range fields_size).map
    (fun i => fieldAnnotationRec (pySlice data (16 + 8 * i) (16 + 8 * i + 8)))
  let ms := 16 + 8 * fields_size
  let method_annotations := (List.range annoted_methods_size).map
    (fun i => methodAnnotationRec (pySlice data (ms + 8 * i) (ms + 8 * i + 8)))
  let ps := ms + 8 * annoted_methods_size
  let parameter_annotations := (List.range annoted_parameters_size).map
    (fun i => parameterAnnotationRec (pySlice data (ps + 8 * i) (ps + 8 * i + 8)))
  { class_annotations_off, fields_size, annoted_methods_size,
    annoted_parameters_size, field_annotations, method_annotations,
    parameter_annotations }

/- `EncodedField`: two varints and the recorded `_size`. -/
structure EncodedField where
  field_idx_diff : Uleb
  access_flags : Uleb
  size : Nat
deriving Repr, DecidableEq

def encodedField (data : List Nat) : Except PyError EncodedField := do
  let field_idx_diff ← uleb128 data
  let off := field_idx_diff.size
  let access_flags ← uleb128 (data.drop off)
  pure { field_idx_diff, access_flags, size := off + access_flags.size }

/- `EncodedField.get_field`: the absolute index is the caller-supplied
running index plus this record's delta. -/
def EncodedField.get_field (f : EncodedField) (prev_idx : Nat)
    (field_ids : List FieldIdItem) : Except PyError FieldIdItem :=
  let field_idx := prev_idx + ulebInt f.field_idx_diff
  if h : field_idx < field_ids.length then .ok field_ids[field_idx]
  else .error .indexError

structure EncodedMethod where
  method_idx_diff : Uleb
  access_flags : Uleb
  code_off : Uleb
  size : Nat
deriving Repr, DecidableEq

def encodedMethod (data : List Nat) : Except PyError EncodedMethod := do
  let method_idx_diff ← uleb128 data
  let off1 := method_idx_diff.size
  let access_flags ← uleb128 (data.drop off1)
  let off2 := off1 + access_flags.size
  let code_off ← uleb128 (data.drop off2)
  pure { method_idx_diff, access_flags, code_off, size := off2 + code_off.size }

def EncodedMethod.get_method (m : EncodedMethod) (prev_idx : Nat)
    (method_ids : List MethodIdItem) : Except PyError MethodIdItem :=
  let method_idx := prev_idx + ulebInt m.method_idx_diff
  if h : method_idx < method_ids.length then .ok method_ids[method_idx]
  else .error .indexError

/- The record-sequence loops of `ClassDataItem.__init__`: parse `n` records,
each from `data[off:]`, advancing `off` by each record's `_size`. -/
def parseEncodedFields (data : List Nat) : Nat → Nat → Except PyError (List EncodedField × Nat)
  | off, 0 => .ok ([], off)
  | off, n + 1 => do
    let f ← encodedField (data.drop off)
    let (fs, off2) ← parseEncodedFields data (off + f.size) n
    pure (f :: fs, off2)

def parseEncodedMethods (data : List Nat) : Nat → Nat → Except PyError (List EncodedMethod × Nat)
  | off, 0 => .ok ([], off)
  | off, n + 1 => do
    let m ← encodedMethod (data.drop off)
    let (ms, off2) ← parseEncodedMethods data (off + m.size) n
    pure (m :: ms, off2)

/- `ClassDataItem` (the source misspells `direct_mehtods`, kept here). -/
structure ClassDataItem where
  static_fields_size : Uleb
  instance_fields_size : Uleb
  direct_mehtods_size : Uleb
  virtual_methods_size : Uleb
  static_fields : List EncodedField
  instance_fields : List EncodedField
  direct_mehtods : List EncodedMethod
  virtual_methods : List EncodedMethod
deriving Repr, DecidableEq

/- `ClassDataItem.__init__`: four varint counts, then the four record
sequences in the fixed order static fields, instance fields, direct
methods, virtual methods. -/
def classDataItem (data : List Nat) : Except PyError ClassDataItem := do
  let static_fields_size ← uleb128 data
  let off1 := static_fields_size.size
  let instance_fields_size ← uleb128 (data.drop off1)
  let off2 := off1 + instance_fields_size.size
  let direct_mehtods_size ← uleb128 (data.drop off2)
  let off3 := off2 + direct_mehtods_size.size
  let virtual_methods_size ← uleb128 (data.drop off3)
  let off4 := off3 + virtual_methods_size.size
  let (static_fields, off5) ← parseEncodedFields data off4 (ulebInt static_fields_size)
  let (instance_fields, off6) ← parseEncodedFields data off5 (ulebInt instance_fields_size)
  let (direct_mehtods, off7) ← parseEncodedMethods data off6 (ulebInt direct_mehtods_size)
  let (virtual_methods, _off8) ← parseEncodedMethods data off7 (ulebInt virtual_methods_size)
  pure { static_fields_size, instance_fields_size, direct_mehtods_size,
         virtual_methods_size, static_fields, instance_fields,
         direct_mehtods, virtual_methods }

/- The member-resolution loops of `ClassDataItem.dump_data`: the running
index starts at 0 and each step resolves with the accumulator, then adds
the record's delta. -/
def resolveFieldSeq (field_ids : List FieldIdItem) : Nat → List EncodedField → Except PyError (List FieldIdItem)
  | _, [] => .ok []
  | prev_idx, f :: rest => do
    let x ← f.get_field prev_idx field_ids
    let xs ← resolveFieldSeq field_ids (prev_idx + ulebInt f.field_idx_diff) rest
    pure (x :: xs)

def resolveMethodSeq (method_ids : List MethodIdItem) : Nat → List EncodedMethod → Except PyError (List MethodIdItem)
  | _, [] => .ok []
  | prev_idx, m :: rest => do
    let x ← m.get_method prev_idx method_ids
    let xs ← resolveMethodSeq method_ids (prev_idx + ulebInt m.method_idx_diff) rest
    pure (x :: xs)

/- The four per-sequence resolution passes of `ClassDataItem.dump_data`, the
accumulator reset to 0 at the start of each sequence. -/
def resolveClassData (cd : ClassDataItem) (field_ids : List FieldIdItem)
    (method_ids : List MethodIdItem) :
    Except PyError (List FieldIdItem) × Except PyError (List FieldIdItem) ×
    Except PyError (List MethodIdItem) × Except PyError (List MethodIdItem) :=
  (resolveFieldSeq field_ids 0 cd.static_fields,
   resolveFieldSeq field_ids 0 cd.instance_fields,
   resolveMethodSeq method_ids 0 cd.direct_mehtods,
   resolveMethodSeq method_ids 0 cd.virtual_methods)

structure EncodedArrayItem
deriving Repr, DecidableEq

/- `EncodedArrayItem.__init__` is `pass`. -/
def encodedArrayItem (_data : List Nat) : EncodedArrayItem := {}

/- `AccessFlag`: the union of the declared flag bits; `enum.Flag` rejects a
value with any bit outside this mask with a `ValueError`. -/
def ACC_FLAGS_MASK : Nat := 0x37FFF

structure ClassDefItem where
  class_idx : Nat
  access_flags : Nat
  superclass_idx : Nat
  interfaces_off : Nat
  source_file_idx : Nat
  annotations_off : Nat
  class_data_off : Nat
  static_values_off : Nat
deriving Repr, DecidableEq

def classDefItem (data : List Nat) : Except PyError ClassDefItem :=
  let af := fromBytesLE (pySlice data 4 8)
  if af &&& ACC_FLAGS_MASK = af then
    .ok { class_idx := fromBytesLE (pySlice data 0 4),
          access_flags := af,
          superclass_idx := fromBytesLE (pySlice data 8 12),
          interfaces_off := fromBytesLE (pySlice data 12 16),
          source_file_idx := fromBytesLE (pySlice data 16 20),
          annotations_off := fromBytesLE (pySlice data 20 24),
          class_data_off := fromBytesLE (pySlice data 24 28),
          static_values_off := fromBytesLE (pySlice data 28 32) }
  else .error .valueError

def ClassDefItem.get_class_type_id_item (c : ClassDefItem) (type_ids : List TypeIdItem) :
    Except PyError TypeIdItem :=
  if h : c.class_idx < type_ids.length then .ok type_ids[c.class_idx]
  else .error .indexError

def ClassDefItem.get_superclass_type_id_item (c : ClassDefItem) (type_ids : List TypeIdItem) :
    Except PyError (Option TypeIdItem) :=
  if c.superclass_idx = NO_INDEX then .ok none
  else if h : c.superclass_idx < type_ids.length then .ok (some type_ids[c.superclass_idx])
  else .error .indexError

def ClassDefItem.get_interfaces_type_list (c : ClassDefItem) (data : List Nat) :
    Option TypeList :=
  if c.interfaces_off = 0x00 then none
  else some (typeList (data.drop c.interfaces_off))

def ClassDefItem.get_source_file_string_id_item (c : ClassDefItem)
    (string_ids : List StringIdItem) : Except PyError (Option StringIdItem) :=
  if c.source_file_idx = NO_INDEX then .ok none
  else if h : c.source_file_idx < string_ids.length then .ok (some string_ids[c.source_file_idx])
  else .error .indexError

def ClassDefItem.get_annotations_annotation_directory_item (c : ClassDefItem)
    (data : List Nat) : Option AnnotationDirectoryItem :=
  if c.annotations_off = 0x00 then none
  else some (annotationDirectoryItem (data.drop c.annotations_off))

def ClassDefItem.get_class_data_class_data_item (c : ClassDefItem)
    (data : List Nat) : Except PyError (Option ClassDataItem) :=
  if c.class_data_off = 0x00 then .ok none
  else (classDataItem (data.drop c.class_data_off)).map some

def ClassDefItem.get_static_values_encoded_array_item (c : ClassDefItem)
    (data : List Nat) : Option EncodedArrayItem :=
  if c.static_values_off = 0x00 then none
  else some (encodedArrayItem (data.drop c.static_values_off))

/- The five fixed-stride table builders of `DexParser.__init__`. -/
def mkStringIds (data : List Nat) (start size : Nat) : List StringIdItem :=
  (List.range size).map (fun i => stringIdItem (pySlice data (start + 4 * i) (start + 4 * i + 4)))

def mkTypeIds (data : List Nat) (start size : Nat) : List TypeIdItem :=
  (List.range size).map (fun i => typeIdItem (pySlice data (start + 4 * i) (start + 4 * i + 4)))

def mkProtoIds (data : List Nat) (start size : Nat) : List ProtoIdItem :=
  (List.range size).map (fun i => protoIdItem (pySlice data (start + 12 * i) (start + 12 * i + 12)))

def mkFieldIds (data : List Nat) (start size : Nat) : List FieldIdItem :=
  (List.range size).map (fun i => fieldIdItem (pySlice data (start + 8 * i) (start + 8 * i + 8)))

def mkMethodIds (data : List Nat) (start size : Nat) : List MethodIdItem :=
  (List.range size).map (fun i => methodIdItem (pySlice data (start + 8 * i) (start + 8 * i + 8)))

structure DexParser where
  full_data : List Nat
  header : HeaderItem
  map_list : MapList
  string_ids : List StringIdItem
  type_ids : List TypeIdItem
  proto_ids : List ProtoIdItem
  field_ids : List FieldIdItem
  method_ids : List MethodIdItem
  class_defs : List ClassDefItem
deriving Repr, DecidableEq

/- `DexParser.__init__`: header, map list, the five primitive id tables and
the class-definition table, in the source's order. -/
def dexParser (data : List Nat) : Except PyError DexParser := do
  let header ← headerItem data
  let map_list ← mapList (data.drop header.map_off)
  let string_ids := mkStringIds data header.string_ids_off header.string_ids_size
  let type_ids := mkTypeIds data header.type_ids_off header.type_ids_size
  let proto_ids := mkProtoIds data header.proto_ids_off header.proto_ids_size
  let field_ids := mkFieldIds data header.field_ids_off header.field_ids_size
  let method_ids := mkMethodIds data header.method_ids_off header.method_ids_size
  let class_defs ← (List.range header.class_defs_size).mapM
    (fun i => classDefItem (pySlice data (header.class_defs_off + 32 * i) (header.class_defs_off + 32 * i + 32)))
  pure { full_data := data, header, map_list, string_ids, type_ids,
         proto_ids, field_ids, method_ids, class_defs }

/- Spec-level restatements of the eight header checks, as direct conditions
on the input buffer. -/
abbrev magicCond (data : List Nat) : Prop := pySlice data 0 4 = MAGIC

abbrev versionCond (data : List Nat) : Prop := (utf8Decode (pySlice data 4 7)).isSome

abbrev byte7Cond (data : List Nat) : Prop := data[7]? = some 0

abbrev checksumCond (data : List Nat) : Prop :=
  adler32 (data.drop 12) = fromBytesLE (pySlice data 8 12)

abbrev signatureCond (data : List Nat) : Prop :=
  sha1 (data.drop 32) = pySlice data 12 32

abbrev fileSizeCond (data : List Nat) : Prop :=
  data.length = fromBytesLE (pySlice data 32 36)

abbrev headerSizeCond (data : List Nat) : Prop :=
  fromBytesLE (pySlice data 36 40) = HEADER_SIZE

abbrev endianCond (data : List Nat) : Prop :=
  fromBytesLE (pySlice data 40 44) = ENDIAN_CONSTANT ∨
  fromBytesLE (pySlice data 40 44) = REVERSE_ENDIAN_CONSTANT

/- The size/arg extraction prescribed by the format specification:
`arg = (header_byte >> 5) & 0x7`. -/
def specArg (b : Nat) : Nat := (b >>> 5) &&& 0x7

/- Index of the first byte with the high bit clear, if any. -/
def firstClear : List Nat → Option Nat
  | [] => none
  | b :: r => if b &&& 0x80 = 0 then some 0 else (firstClear r).map (· + 1)

/- Spec-level description of the varint decoder's observable behaviour:
terminator within the first five bytes means success consuming up to and
including it; five or more bytes with no terminator among the first five is
a structural error; a shorter buffer with no terminator yields zero bytes
consumed. -/
def uleb128Spec (d : List Nat) : Except PyError Uleb :=
  match firstClear d with
  | some j =>
    if j ≤ 4 then .ok { data := d.take (j + 1), size := j + 1 }
    else .error (.badDexFile msgUleb)
  | none =>
    if 5 ≤ d.length then .error (.badDexFile msgUleb)
    else .ok { data := [], size := 0 }

/- The claimed value formula `Σ (byte_i & 0x7f) << (7·i)`, written as plain
arithmetic. -/
def specValueAdd : List Nat → Nat
  | [] => 0
  | b :: r => (b &&& 0x7f) + 2 ^ 7 * specValueAdd r

/- Minimal-length unsigned-LEB128 encoder (spec side, for round-trip
statements). -/
def ulebEncodeGo : Nat → Nat → List Nat
  | 0, _ => []
  | fuel + 1, n => if n < 128 then [n] else (n % 128 + 0x80) :: ulebEncodeGo fuel (n / 128)

def ulebEncode (n : Nat) : List Nat :=
  ulebEncodeGo (n + 1) n

def mkUlebOf (n : Nat) : Uleb :=
  { data := ulebEncode n, size := (ulebEncode n).length }

/- Spec-side encodings of class-data records: a field record is
`(index_delta, access_flags)`, a method record is
`(index_delta, access_flags, code_offset)`, each value a varint. -/
def encFieldRec (p : Nat × Nat) : List Nat :=
  ulebEncode p.1 ++ ulebEncode p.2

def encMethodRec (t : Nat × Nat × Nat) : List Nat :=
  ulebEncode t.1 ++ ulebEncode t.2.1 ++ ulebEncode t.2.2

/- Spec-side encoding of a whole class-data item: four varint counts, then
the four delta-encoded sequences in the fixed order static fields, instance
fields, direct methods, virtual methods. -/
def encClassData (sf fi : List (Nat × Nat)) (dm vm : List (Nat × Nat × Nat)) : List Nat :=
  ulebEncode sf.length ++ (ulebEncode fi.length ++ (ulebEncode dm.length ++
  (ulebEncode vm.length ++ ((sf.map encFieldRec).flatten ++
  ((fi.map encFieldRec).flatten ++ ((dm.map encMethodRec).flatten ++
  (vm.map encMethodRec).flatten))))))

def mkEncodedField (p : Nat × Nat) : EncodedField :=
  { field_idx_diff := mkUlebOf p.1, access_flags := mkUlebOf p.2,
    size := (encFieldRec p).length }

def mkEncodedMethod (t : Nat × Nat × Nat) : EncodedMethod :=
  { method_idx_diff := mkUlebOf t.1, access_flags := mkUlebOf t.2.1,
    code_off := mkUlebOf t.2.2, size := (encMethodRec t).length }

/- Sum of the deltas of positions 0 through i of a field/method sequence. -/
def deltaSumF (fs : List EncodedField) (i : Nat) : Nat :=
  ((fs.take (i + 1)).map (fun f => ulebInt f.field_idx_diff)).sum

def deltaSumM (ms : List EncodedMethod) (i : Nat) : Nat :=
  ((ms.take (i + 1)).map (fun m => ulebInt m.method_idx_diff)).sum

/- A concrete, fully valid minimal container: 112-byte header, all tables
empty, the map offset pointing at the end of the buffer, correct checksum
and signature.  Bytes [32,112) first. -/
def leBytes32 (x : Nat) : List Nat :=
  [x % 256, x / 256 % 256, x / 65536 % 256, x / 16777216 % 256]

def validBufTail : List Nat :=
  [112, 0, 0, 0] ++ [112, 0, 0, 0] ++ [0x78, 0x56, 0x34, 0x12] ++
  [0, 0, 0, 0] ++ [0, 0, 0, 0] ++ [112, 0, 0, 0] ++
  List.replicate 48 0 ++ [0, 0, 0, 0] ++ [0, 0, 0, 0]

def validBufSig : List Nat := sha1 validBufTail

def validBufChk : List Nat := leBytes32 (adler32 (validBufSig ++ validBufTail))

def validBuf : List Nat :=
  MAGIC ++ [0x30, 0x33, 0x35, 0x00] ++ validBufChk ++ validBufSig ++ validBufTail

/- The same container with the version bytes replaced by 0xFF 0xFF 0xFF:
every header field, the checksum and the signature stay correct (bytes
[4,7) are covered by neither), but the version bytes are not UTF-8. -/
def badVerBuf : List Nat :=
  MAGIC ++ [0xFF, 0xFF, 0xFF, 0x00] ++ validBufChk ++ validBufSig ++ validBufTail

deriving instance DecidableEq for Except

/-!  Theorems.  First, generic helper lemmas. -/

theorem except_bind_ok {α β : Type} {e : Except PyError α} {f : α → Except PyError β}
    {b : β} (h : (e >>= f) = .ok b) : ∃ a, e = .ok a ∧ f a = .ok b := by
  cases e with
  | ok a => exact ⟨a, rfl, h⟩
  | error _ => simp [Bind.bind, Except.bind] at h

theorem except_bind_error {α β : Type} {e : Except PyError α} {f : α → Except PyError β}
    {err : PyError} (h : e = .error err) : (e >>= f) = .error err := by
  subst h; rfl

theorem resOk_iff {α : Type} {e : Except PyError α} : resOk e = true ↔ ∃ a, e = .ok a := by
  cases e <;> simp [resOk]

theorem resErr_iff {α : Type} {e : Except PyError α} : resErr e = true ↔ ∃ m, e = .error m := by
  cases e <;> simp [resErr]

/- `(v <<< k) ||| m = v * 2^k + m` whenever `m` fits below the shift. -/
theorem lor_shl_eq_add {k : Nat} (v m : Nat) (h : m < 2 ^ k) :
    (v <<< k) ||| m = v * 2 ^ k + m := by
  apply Nat.eq_of_testBit_eq
  intro i
  rw [Nat.testBit_or, Nat.testBit_shiftLeft]
  rcases Nat.lt_or_ge i k with hik | hik
  · have h1 : (decide (k ≤ i)) = false := by simp only [decide_eq_false_iff_not]; omega
    rw [h1]
    simp only [Bool.false_and, Bool.false_or]
    rw [Nat.testBit_to_div_mod, Nat.testBit_to_div_mod]
    have hk : 2 ^ k = 2 ^ (k - i) * 2 ^ i := by rw [← Nat.pow_add]; congr 1; omega
    have h2 : v * 2 ^ k + m = m + (v * 2 ^ (k - i)) * 2 ^ i := by
      rw [hk, ← Nat.mul_assoc]; omega
    rw [h2, Nat.add_mul_div_right _ _ (Nat.pos_pow_of_pos i (by norm_num))]
    have h3 : v * 2 ^ (k - i) = (v * 2 ^ (k - i - 1)) * 2 := by
      have hs : 2 ^ (k - i) = 2 ^ (k - i - 1) * 2 := by
        rw [← Nat.pow_succ]; congr 1; omega
      rw [hs, ← Nat.mul_assoc]
    rw [h3, Nat.add_mul_mod_self_right]
  · have h1 : (decide (k ≤ i)) = true := by simp only [decide_eq_true_eq]; omega
    rw [h1]
    simp only [Bool.true_and]
    have hm : m.testBit i = false :=
      Nat.testBit_lt_two_pow (Nat.lt_of_lt_of_le h (Nat.pow_le_pow_right (by norm_num) hik))
    rw [hm, Bool.or_false]
    rw [Nat.testBit_to_div_mod, Nat.testBit_to_div_mod]
    have hsplit : (2 : Nat) ^ i = 2 ^ k * 2 ^ (i - k) := by
      rw [← Nat.pow_add]; congr 1; omega
    have h2 : (v * 2 ^ k + m) / 2 ^ i = v / 2 ^ (i - k) := by
      rw [hsplit, ← Nat.div_div_eq_div_mul]
      congr 1
      rw [Nat.add_comm, Nat.add_mul_div_right _ _ (Nat.pos_pow_of_pos k (by norm_num)),
          Nat.div_eq_of_lt h, Nat.zero_add]
    rw [h2]

theorem and_127_eq_mod (n : Nat) : n &&& 0x7f = n % 128 := by
  have := Nat.and_pow_two_sub_one_eq_mod n 7
  norm_num at this
  exact this

theorem and_128_eq_zero {n : Nat} (h : n < 128) : n &&& 0x80 = 0 := by
  apply Nat.eq_of_testBit_eq
  intro i
  simp only [Nat.testBit_and, Nat.zero_testBit]
  by_cases h7 : i = 7
  · subst h7
    have hn : n < 2 ^ 7 := by norm_num; omega
    have : n.testBit 7 = false := Nat.testBit_lt_two_pow hn
    simp [this]
  · have h2 : (0x80 : Nat) = 2 ^ 7 := by norm_num
    have : (0x80 : Nat).testBit i = false := by
      rw [h2, Nat.testBit_two_pow]
      simp only [decide_eq_false_iff_not]
      omega
    simp [this]

theorem and_128_ne_zero {n : Nat} (h1 : 128 ≤ n) (h2 : n < 256) : n &&& 0x80 ≠ 0 := by
  intro hz
  have h7 : n.testBit 7 = true := by
    rw [Nat.testBit_to_div_mod]
    have hd : n / 2 ^ 7 = 1 := by
      have : (2 : Nat) ^ 7 = 128 := by norm_num
      rw [this]; omega
    norm_num at hd ⊢
    omega
  have htb : (n &&& 0x80).testBit 7 = true := by
    rw [Nat.testBit_and, h7]
    have h2p : (0x80 : Nat) = 2 ^ 7 := by norm_num
    rw [h2p, Nat.testBit_two_pow_self]
    rfl
  rw [hz] at htb
  simp [Nat.zero_testBit] at htb

/- `fromBytesLE` bounds and single-byte sensitivity. -/
theorem fromBytesLE_nil : fromBytesLE [] = 0 := rfl

theorem fromBytesLE_cons (b : Nat) (l : List Nat) :
    fromBytesLE (b :: l) = b + 256 * fromBytesLE l := rfl

theorem fromBytesLE_lt : ∀ {l : List Nat}, (∀ b ∈ l, b < 256) →
    fromBytesLE l < 256 ^ l.length
  | [], _ => by simp [fromBytesLE_nil]
  | b :: r, h => by
    have hb : b < 256 := h b (List.mem_cons_self b r)
    have hr : fromBytesLE r < 256 ^ r.length :=
      fromBytesLE_lt (fun x hx => h x (List.mem_cons_of_mem b hx))
    rw [fromBytesLE_cons]
    simp only [List.length_cons]
    rw [Nat.pow_succ]
    omega

theorem fromBytesLE_set_ne : ∀ {l : List Nat} {j v : Nat}, j < l.length →
    v ≠ l.getD j 0 → fromBytesLE (l.set j v) ≠ fromBytesLE l
  | [], j, v, hj, _ => by simp at hj
  | b :: r, 0, v, _, hne => by
    have hgd : (b :: r).getD 0 0 = b := rfl
    rw [hgd] at hne
    show fromBytesLE (v :: r) ≠ fromBytesLE (b :: r)
    rw [fromBytesLE_cons, fromBytesLE_cons]
    omega
  | b :: r, j + 1, v, hj, hne => by
    simp only [List.length_cons] at hj
    have hj' : j < r.length := by omega
    have hgd : (b :: r).getD (j + 1) 0 = r.getD j 0 := rfl
    rw [hgd] at hne
    have hrec := fromBytesLE_set_ne hj' hne
    show fromBytesLE (b :: r.set j v) ≠ fromBytesLE (b :: r)
    rw [fromBytesLE_cons, fromBytesLE_cons]
    omega

/- `pySlice` / `List.set` interaction. -/
theorem getElem?_pySlice (l : List Nat) (a b j : Nat) :
    (pySlice l a b)[j]? = if j < b - a then l[a + j]? else none := by
  unfold pySlice
  rw [List.getElem?_take]
  split
  · exact List.getElem?_drop l a j
  · rfl

theorem pySlice_set_of_ge {l : List Nat} {i v a b : Nat} (h : b ≤ i) :
    pySlice (l.set i v) a b = pySlice l a b := by
  apply List.ext_getElem?
  intro j
  rw [getElem?_pySlice, getElem?_pySlice]
  split
  · next hj =>
    rw [List.getElem?_set_ne]
    omega
  · rfl

theorem drop_set_of_lt {l : List Nat} {i v n : Nat} (h : i < n) :
    (l.set i v).drop n = l.drop n := by
  apply List.ext_getElem?
  intro j
  rw [List.getElem?_drop, List.getElem?_drop]
  rw [List.getElem?_set_ne]
  omega

theorem drop_set_of_ge {l : List Nat} {i v n : Nat} (h : n ≤ i) :
    (l.set i v).drop n = (l.drop n).set (i - n) v := by
  apply List.ext_getElem?
  intro j
  rw [List.getElem?_drop, List.getElem?_set, List.getElem?_set, List.getElem?_drop,
      List.length_drop]
  by_cases h1 : i = n + j
  · subst h1
    rw [if_pos rfl, if_pos (show n + j - n = j by omega)]
    by_cases h3 : n + j < l.length
    · rw [if_pos h3, if_pos (by omega)]
    · rw [if_neg h3, if_neg (by omega)]
  · rw [if_neg h1, if_neg (by omega)]

theorem pySlice_length (l : List Nat) (a b : Nat) :
    (pySlice l a b).length = min (b - a) (l.length - a) := by
  unfold pySlice
  rw [List.length_take, List.length_drop]

theorem pySlice_set_mid {l : List Nat} {i v a b : Nat} (ha : a ≤ i) (hb : i < b) :
    pySlice (l.set i v) a b = (pySlice l a b).set (i - a) v := by
  apply List.ext_getElem?
  intro j
  rw [getElem?_pySlice, List.getElem?_set, List.getElem?_set, getElem?_pySlice,
      pySlice_length]
  by_cases hij : i - a = j
  · rw [if_pos hij, if_pos (show j < b - a by omega), if_pos (show i = a + j by omega)]
    by_cases h3 : i < l.length
    · rw [if_pos h3, if_pos (show i - a < min (b - a) (l.length - a) by omega)]
    · rw [if_neg h3, if_neg (show ¬ i - a < min (b - a) (l.length - a) by omega)]
  · rw [if_neg hij, if_neg (show ¬ i = a + j by omega)]

theorem pySlice_eq_nil_of_ge {l : List Nat} {a b : Nat} (h : l.length ≤ a) :
    pySlice l a b = [] := by
  unfold pySlice
  rw [List.drop_eq_nil_of_le h]
  exact List.take_nil

theorem getD_pySlice (l : List Nat) (a b j : Nat) (h : j < b - a) :
    (pySlice l a b).getD j 0 = (l.getD (a + j) 0) := by
  rw [List.getD_eq_getElem?_getD, List.getD_eq_getElem?_getD, getElem?_pySlice, if_pos h]

/- adler32: the low half of the result is `(1 + Σ bytes) mod 65521`, so any
single-byte change below 65521 changes the checksum. -/
theorem adler_fold_fst : ∀ (l : List Nat) (s1 s2 : Nat), s1 < 65521 →
    (l.foldl adlerStep (s1, s2)).1 = (s1 + l.sum) % 65521
  | [], s1, s2, h => by
    simp only [List.foldl_nil, List.sum_nil, Nat.add_zero]
    exact (Nat.mod_eq_of_lt h).symm
  | b :: r, s1, s2, h => by
    simp only [List.foldl_cons, List.sum_cons]
    have hrec := adler_fold_fst r ((s1 + b) % 65521) ((s2 + ((s1 + b) % 65521)) % 65521)
      (Nat.mod_lt _ (by norm_num))
    have hstep : adlerStep (s1, s2) b = ((s1 + b) % 65521, (s2 + ((s1 + b) % 65521)) % 65521) := rfl
    rw [hstep, hrec, Nat.mod_add_mod]
    congr 1
    omega

theorem adler_fold_fst_lt (l : List Nat) : (l.foldl adlerStep (1, 0)).1 < 65536 := by
  rw [adler_fold_fst l 1 0 (by norm_num)]
  have := Nat.mod_lt (1 + l.sum) (y := 65521) (by norm_num)
  omega

theorem adler32_mod_65536 (l : List Nat) : adler32 l % 65536 = (1 + l.sum) % 65521 := by
  have hlt : (l.foldl adlerStep (1, 0)).1 < 65536 := adler_fold_fst_lt l
  have hfst := adler_fold_fst l 1 0 (by norm_num)
  show (((l.foldl adlerStep (1, 0)).2 <<< 16) ||| (l.foldl adlerStep (1, 0)).1) % 65536
      = (1 + l.sum) % 65521
  rw [lor_shl_eq_add _ _ (show (l.foldl adlerStep (1, 0)).1 < 2 ^ 16 by norm_num; omega)]
  have h16 : (2 : Nat) ^ 16 = 65536 := by norm_num
  rw [h16]
  omega

theorem sum_set_add : ∀ (l : List Nat) (j v : Nat), j < l.length →
    (l.set j v).sum + l.getD j 0 = l.sum + v
  | [], j, v, h => by simp at h
  | b :: r, 0, v, _ => by
    show (v :: r).sum + b = (b :: r).sum + v
    simp only [List.sum_cons]
    omega
  | b :: r, j + 1, v, h => by
    simp only [List.length_cons] at h
    have := sum_set_add r j v (by omega)
    show (b :: r.set j v).sum + r.getD j 0 = (b :: r).sum + v
    simp only [List.sum_cons]
    omega

theorem adler32_set_ne {l : List Nat} {j v : Nat} (hj : j < l.length)
    (hb : l.getD j 0 < 65521) (hv : v < 65521) (hne : v ≠ l.getD j 0) :
    adler32 (l.set j v) ≠ adler32 l := by
  intro heq
  have h1 : adler32 (l.set j v) % 65536 = adler32 l % 65536 := by rw [heq]
  rw [adler32_mod_65536, adler32_mod_65536] at h1
  have h2 := sum_set_add l j v hj
  omega

theorem mem_of_mem_pySlice {b : Nat} {l : List Nat} {x y : Nat}
    (h : b ∈ pySlice l x y) : b ∈ l :=
  List.mem_of_mem_drop (List.mem_of_mem_take h)

/- Header validation: characterization of success and of each failure. -/
theorem headerItem_ok_iff (data : List Nat) :
    resOk (headerItem data) = true ↔
      (magicCond data ∧ versionCond data ∧ byte7Cond data ∧ checksumCond data ∧
       signatureCond data ∧ fileSizeCond data ∧ headerSizeCond data ∧ endianCond data) := by
  unfold headerItem
  by_cases h1 : pySlice data 0 4 = MAGIC
  · cases hv : utf8Decode (pySlice data 4 7) with
    | none =>
      simp only [if_neg (not_not_intro h1), hv, resOk]
      refine iff_of_false (by simp) (fun h => ?_)
      have hvs : (utf8Decode (pySlice data 4 7)).isSome = true := h.2.1
      rw [hv] at hvs
      simp at hvs
    | some ver =>
      cases hb : data[7]? with
      | none =>
        simp only [if_neg (not_not_intro h1), hv, hb, resOk]
        refine iff_of_false (by simp) (fun h => ?_)
        have hby : data[7]? = some 0 := h.2.2.1
        rw [hb] at hby
        exact Option.noConfusion hby
      | some b7 =>
        by_cases h7 : b7 = 0
        · subst h7
          by_cases hc : adler32 (data.drop 12) = fromBytesLE (pySlice data 8 12)
          · by_cases hs : sha1 (data.drop 32) = pySlice data 12 32
            · by_cases hf : data.length = fromBytesLE (pySlice data 32 36)
              · by_cases hh : fromBytesLE (pySlice data 36 40) = HEADER_SIZE
                · by_cases he : fromBytesLE (pySlice data 40 44) = ENDIAN_CONSTANT ∨
                      fromBytesLE (pySlice data 40 44) = REVERSE_ENDIAN_CONSTANT
                  · simp only [if_neg (not_not_intro h1), hv, hb,
                      if_neg (not_not_intro rfl), if_neg (not_not_intro hc),
                      if_neg (not_not_intro hs), if_neg (not_not_intro hf),
                      if_neg (not_not_intro hh), if_pos he, resOk]
                    exact iff_of_true trivial
                      ⟨h1, by simp only [versionCond, hv, Option.isSome_some], hb,
                       hc, hs, hf, hh, he⟩
                  · simp only [if_neg (not_not_intro h1), hv, hb,
                      if_neg (not_not_intro rfl), if_neg (not_not_intro hc),
                      if_neg (not_not_intro hs), if_neg (not_not_intro hf),
                      if_neg (not_not_intro hh), if_neg he, resOk]
                    exact iff_of_false (by simp) (fun h => he h.2.2.2.2.2.2.2)
                · simp only [if_neg (not_not_intro h1), hv, hb,
                    if_neg (not_not_intro rfl), if_neg (not_not_intro hc),
                    if_neg (not_not_intro hs), if_neg (not_not_intro hf),
                    if_pos hh, resOk]
                  exact iff_of_false (by simp) (fun h => hh h.2.2.2.2.2.2.1)
              · simp only [if_neg (not_not_intro h1), hv, hb,
                  if_neg (not_not_intro rfl), if_neg (not_not_intro hc),
                  if_neg (not_not_intro hs), if_pos hf, resOk]
                exact iff_of_false (by simp) (fun h => hf h.2.2.2.2.2.1)
            · simp only [if_neg (not_not_intro h1), hv, hb,
                if_neg (not_not_intro rfl), if_neg (not_not_intro hc),
                if_pos hs, resOk]
              exact iff_of_false (by simp) (fun h => hs h.2.2.2.2.1)
          · simp only [if_neg (not_not_intro h1), hv, hb,
              if_neg (not_not_intro rfl), if_pos hc, resOk]
            exact iff_of_false (by simp) (fun h => hc h.2.2.2.1)
        · simp only [if_neg (not_not_intro h1), hv, hb, if_pos h7, resOk]
          refine iff_of_false (by simp) (fun h => ?_)
          have hby : data[7]? = some 0 := h.2.2.1
          rw [hb] at hby
          exact h7 (by injection hby)
  · simp only [if_pos h1, resOk]
    exact iff_of_false (by simp) (fun h => h1 h.1)

theorem headerItem_err_magic {data : List Nat} (h : ¬ magicCond data) :
    headerItem data = .error (.badDexFile msgBadMagic) := by
  unfold headerItem
  rw [if_pos h]

theorem headerItem_err_version {data : List Nat} (h1 : magicCond data)
    (h2 : utf8Decode (pySlice data 4 7) = none) :
    headerItem data = .error .unicodeDecodeError := by
  unfold headerItem
  rw [if_neg (not_not_intro h1), h2]

theorem headerItem_err_byte7_missing {data : List Nat} {ver : List Nat}
    (h1 : magicCond data) (h2 : utf8Decode (pySlice data 4 7) = some ver)
    (h3 : data[7]? = none) :
    headerItem data = .error .indexError := by
  simp only [headerItem, if_neg (not_not_intro h1), h2, h3]

theorem headerItem_err_byte7 {data : List Nat} {ver : List Nat} {b7 : Nat}
    (h1 : magicCond data) (h2 : utf8Decode (pySlice data 4 7) = some ver)
    (h3 : data[7]? = some b7) (h4 : b7 ≠ 0) :
    headerItem data = .error (.badDexFile msgBadByte7) := by
  simp only [headerItem, if_neg (not_not_intro h1), h2, h3, if_pos h4]

theorem headerItem_err_checksum {data : List Nat}
    (h1 : magicCond data) (h2 : versionCond data) (h3 : byte7Cond data)
    (hc : ¬ checksumCond data) :
    headerItem data = .error (.badDexFile msgBadChecksum) := by
  obtain ⟨ver, hver⟩ := Option.isSome_iff_exists.mp h2
  simp only [headerItem, if_neg (not_not_intro h1), hver, h3,
    if_neg (not_not_intro rfl), if_pos hc]

theorem headerItem_err_signature {data : List Nat}
    (h1 : magicCond data) (h2 : versionCond data) (h3 : byte7Cond data)
    (hc : checksumCond data) (hs : ¬ signatureCond data) :
    headerItem data = .error (.badDexFile msgBadSignature) := by
  obtain ⟨ver, hver⟩ := Option.isSome_iff_exists.mp h2
  simp only [headerItem, if_neg (not_not_intro h1), hver, h3,
    if_neg (not_not_intro rfl), if_neg (not_not_intro hc), if_pos hs]

theorem headerItem_err_file_size {data : List Nat}
    (h1 : magicCond data) (h2 : versionCond data) (h3 : byte7Cond data)
    (hc : checksumCond data) (hs : signatureCond data) (hf : ¬ fileSizeCond data) :
    headerItem data = .error (.badDexFile msgBadFileSize) := by
  obtain ⟨ver, hver⟩ := Option.isSome_iff_exists.mp h2
  simp only [headerItem, if_neg (not_not_intro h1), hver, h3,
    if_neg (not_not_intro rfl), if_neg (not_not_intro hc), if_neg (not_not_intro hs),
    if_pos hf]

theorem headerItem_err_header_size {data : List Nat}
    (h1 : magicCond data) (h2 : versionCond data) (h3 : byte7Cond data)
    (hc : checksumCond data) (hs : signatureCond data) (hf : fileSizeCond data)
    (hh : ¬ headerSizeCond data) :
    headerItem data = .error (.badDexFile msgBadHeaderSize) := by
  obtain ⟨ver, hver⟩ := Option.isSome_iff_exists.mp h2
  simp only [headerItem, if_neg (not_not_intro h1), hver, h3,
    if_neg (not_not_intro rfl), if_neg (not_not_intro hc), if_neg (not_not_intro hs),
    if_neg (not_not_intro hf), if_pos hh]

theorem headerItem_err_endian {data : List Nat}
    (h1 : magicCond data) (h2 : versionCond data) (h3 : byte7Cond data)
    (hc : checksumCond data) (hs : signatureCond data) (hf : fileSizeCond data)
    (hh : headerSizeCond data) (he : ¬ endianCond data) :
    headerItem data = .error (.badDexFile msgBadEndian) := by
  obtain ⟨ver, hver⟩ := Option.isSome_iff_exists.mp h2
  simp only [headerItem, if_neg (not_not_intro h1), hver, h3,
    if_neg (not_not_intro rfl), if_neg (not_not_intro hc), if_neg (not_not_intro hs),
    if_neg (not_not_intro hf), if_neg (not_not_intro hh), if_neg he]

theorem endianCond_length {data : List Nat} (hbytes : ∀ b ∈ data, b < 256)
    (he : endianCond data) : 44 ≤ data.length := by
  by_contra hlen
  have hslen : (pySlice data 40 44).length ≤ 3 := by
    rw [pySlice_length]; omega
  have hlt := fromBytesLE_lt (l := pySlice data 40 44)
    (fun b hb => hbytes b (mem_of_mem_pySlice hb))
  have hsmall : fromBytesLE (pySlice data 40 44) < 16777216 := by
    calc fromBytesLE (pySlice data 40 44) < 256 ^ (pySlice data 40 44).length := hlt
    _ ≤ 256 ^ 3 := Nat.pow_le_pow_right (by norm_num) hslen
    _ = 16777216 := by norm_num
  rcases he with he | he <;> rw [he] at hsmall <;> norm_num [ENDIAN_CONSTANT, REVERSE_ENDIAN_CONSTANT] at hsmall

/- The scan loop against the position of the first terminating byte. -/
theorem firstClear_cons_clear {b : Nat} {r : List Nat} (hb : b &&& 0x80 = 0) :
    firstClear (b :: r) = some 0 := by
  simp [firstClear, hb]

theorem firstClear_cons_set {b : Nat} {r : List Nat} (hb : ¬ b &&& 0x80 = 0) :
    firstClear (b :: r) = (firstClear r).map (· + 1) := by
  simp [firstClear, hb]

theorem ulebScan_some : ∀ (d : List Nat) (j idx : Nat), firstClear d = some j → idx ≤ 4 →
    ulebScan d idx = if idx + j ≤ 4 then .ok (idx + j + 1) else .error (.badDexFile msgUleb)
  | [], j, idx, h, _ => by simp [firstClear] at h
  | b :: r, j, idx, h, hidx => by
    by_cases hb : b &&& 0x80 = 0
    · rw [firstClear_cons_clear hb] at h
      injection h with h
      subst h
      simp only [ulebScan, if_pos hb]
      rw [if_pos (by omega)]
    · rw [firstClear_cons_set hb] at h
      obtain ⟨j2, hj2, rfl⟩ := Option.map_eq_some'.mp h
      simp only [ulebScan, if_neg hb]
      by_cases h4 : idx = 4
      · subst h4
        rw [if_pos rfl, if_neg (by omega)]
      · rw [if_neg h4, ulebScan_some r j2 (idx + 1) hj2 (by omega)]
        by_cases hj : idx + 1 + j2 ≤ 4
        · rw [if_pos hj, if_pos (by omega)]
          congr 1
          omega
        · rw [if_neg hj, if_neg (by omega)]

theorem ulebScan_none : ∀ (d : List Nat) (idx : Nat), firstClear d = none → idx ≤ 4 →
    ulebScan d idx = if 5 ≤ idx + d.length then .error (.badDexFile msgUleb) else .ok 0
  | [], idx, _, hidx => by
    simp only [ulebScan, List.length_nil]
    rw [if_neg (by omega)]
  | b :: r, idx, h, hidx => by
    by_cases hb : b &&& 0x80 = 0
    · rw [firstClear_cons_clear hb] at h
      exact Option.noConfusion h
    · rw [firstClear_cons_set hb] at h
      have hr : firstClear r = none := by
        cases hfc : firstClear r with
        | none => rfl
        | some x => rw [hfc] at h; simp at h
      simp only [ulebScan, if_neg hb, List.length_cons]
      by_cases h4 : idx = 4
      · subst h4
        rw [if_pos rfl, if_pos (by omega)]
      · rw [if_neg h4, ulebScan_none r (idx + 1) hr (by omega)]
        by_cases hl : 5 ≤ idx + 1 + r.length
        · rw [if_pos hl, if_pos (by omega)]
        · rw [if_neg hl, if_neg (by omega)]

theorem uleb128Spec_some {d : List Nat} {j : Nat} (h : firstClear d = some j) :
    uleb128Spec d = if j ≤ 4 then .ok { data := d.take (j + 1), size := j + 1 }
      else .error (.badDexFile msgUleb) := by
  unfold uleb128Spec
  rw [h]

theorem uleb128Spec_none {d : List Nat} (h : firstClear d = none) :
    uleb128Spec d = if 5 ≤ d.length then .error (.badDexFile msgUleb)
      else .ok { data := [], size := 0 } := by
  unfold uleb128Spec
  rw [h]

theorem uleb128_eq_spec (d : List Nat) : uleb128 d = uleb128Spec d := by
  cases hfc : firstClear d with
  | some j =>
    unfold uleb128
    rw [ulebScan_some d j 0 hfc (by omega), uleb128Spec_some hfc]
    by_cases hj : j ≤ 4
    · rw [if_pos (show 0 + j ≤ 4 by omega), if_pos hj]
      simp [Except.map]
    · rw [if_neg (show ¬ 0 + j ≤ 4 by omega), if_neg hj]
      rfl
  | none =>
    unfold uleb128
    rw [ulebScan_none d 0 hfc (by omega), uleb128Spec_none hfc]
    by_cases hl : 5 ≤ d.length
    · rw [if_pos (show 5 ≤ 0 + d.length by omega), if_pos hl]
      rfl
    · rw [if_neg (show ¬ 5 ≤ 0 + d.length by omega), if_neg hl]
      simp [Except.map]

theorem foldr_uleb_eq_spec (l : List Nat) :
    l.foldr (fun b v => (v <<< 7) ||| (b &&& 0x7f)) 0 = specValueAdd l := by
  induction l with
  | nil => rfl
  | cons b r ih =>
    simp only [List.foldr_cons, specValueAdd, ih]
    rw [lor_shl_eq_add _ _ (show b &&& 0x7f < 2 ^ 7 by
      have := Nat.and_le_right (n := b) (m := 0x7f)
      norm_num at this ⊢
      omega)]
    ring

theorem ulebInt_eq_spec (u : Uleb) : ulebInt u = specValueAdd u.data :=
  foldr_uleb_eq_spec u.data

/-- C4, counterexample: the one-byte input `[0x80]` contains no terminating
byte (its only byte has the high bit set), yet the decoder does not fail: it
returns successfully with zero bytes consumed (and hence value 0), where the
claim demands a `StructuralError` whenever no terminating byte is found
within 5 bytes. -/
theorem c4_counterexample :
    uleb128 [128] = .ok { data := [], size := 0 } ∧
    (∀ b ∈ [(128 : Nat)], b &&& 0x80 ≠ 0) := by
  constructor
  · rfl
  · decide

/-- C4 (amended): for every byte sequence, the varint decoder returns
`Σ (byte_i & 0x7f) << (7·i)` over the bytes up to and including the first
byte with high bit clear and reports exactly that number of bytes consumed;
it fails with a `StructuralError` exactly when the sequence has at least 5
bytes and none of the first 5 has its high bit clear; when the sequence is
shorter than 5 bytes and contains no byte with high bit clear it instead
succeeds with value 0 and 0 bytes consumed.  (`uleb128Spec` states exactly
this case split, `specValueAdd` the Σ formula.) -/
theorem c4_uleb128_amended (d : List Nat) :
    uleb128 d = uleb128Spec d ∧
    (∀ u : Uleb, uleb128 d = .ok u → ulebInt u = specValueAdd u.data) :=
  ⟨uleb128_eq_spec d, fun u _ => ulebInt_eq_spec u⟩

theorem c4_uleb128_amended_witness :
    uleb128 [0x85, 3] = uleb128Spec [0x85, 3] ∧
    ulebInt { data := [0x85, 3], size := 2 } = specValueAdd [0x85, 3] :=
  ⟨(c4_uleb128_amended [0x85, 3]).1,
   (c4_uleb128_amended [0x85, 3]).2 { data := [0x85, 3], size := 2 } (by decide)⟩

/-- C1, counterexample: a buffer that satisfies every condition the claim
lists — magic, zero byte 7, matching adler32 checksum, matching SHA-1
signature, correct declared file size, header size 112 and a recognized
endian tag — yet header validation does not produce a validated header: the
version bytes [4,7) are not valid UTF-8 and `data[4:7].decode("utf8")`
raises a `UnicodeDecodeError` (which is not the module's `BadDexFileError`
StructuralError). -/
theorem c1_counterexample :
    (pySlice badVerBuf 0 4 = MAGIC ∧ badVerBuf[7]? = some 0 ∧
     adler32 (badVerBuf.drop 12) = fromBytesLE (pySlice badVerBuf 8 12) ∧
     sha1 (badVerBuf.drop 32) = pySlice badVerBuf 12 32 ∧
     badVerBuf.length = fromBytesLE (pySlice badVerBuf 32 36) ∧
     fromBytesLE (pySlice badVerBuf 36 40) = HEADER_SIZE ∧
     (fromBytesLE (pySlice badVerBuf 40 44) = ENDIAN_CONSTANT ∨
      fromBytesLE (pySlice badVerBuf 40 44) = REVERSE_ENDIAN_CONSTANT)) ∧
    headerItem badVerBuf = .error .unicodeDecodeError := by
  constructor
  · refine ⟨by decide, by decide, by decide, by decide, by decide, by decide, ?_⟩
    left
    decide
  · decide

/-- C1 (amended): header validation produces a validated `Header` exactly
when, checked in this order with short-circuit on the first failure: the
first 4 bytes equal the fixed magic; bytes [4,7) decode as UTF-8 (the
version string); byte 7 exists and is zero; the adler32 checksum over
[12,end) equals the little-endian 32-bit value at [8,12); the SHA-1 hash
over [32,end) equals the 20 bytes at [12,32); the declared file size at
[32,36) equals the buffer length; the declared header size at [36,40)
equals 112; and the endian tag at [40,44) is one of the two recognized
constants.  A failing check raises a StructuralError, except that
undecodable version bytes raise a text-decoding error and a missing byte 7
an index error. -/
theorem c1_header_amended (data : List Nat) :
    (resOk (headerItem data) = true ↔
      (magicCond data ∧ versionCond data ∧ byte7Cond data ∧ checksumCond data ∧
       signatureCond data ∧ fileSizeCond data ∧ headerSizeCond data ∧ endianCond data)) ∧
    (¬ magicCond data → headerItem data = .error (.badDexFile msgBadMagic)) ∧
    (magicCond data → ¬ versionCond data → headerItem data = .error .unicodeDecodeError) ∧
    (magicCond data → versionCond data → ¬ byte7Cond data →
       headerItem data = .error .indexError ∨
       headerItem data = .error (.badDexFile msgBadByte7)) ∧
    (magicCond data → versionCond data → byte7Cond data → ¬ checksumCond data →
       headerItem data = .error (.badDexFile msgBadChecksum)) ∧
    (magicCond data → versionCond data → byte7Cond data → checksumCond data →
       ¬ signatureCond data → headerItem data = .error (.badDexFile msgBadSignature)) ∧
    (magicCond data → versionCond data → byte7Cond data → checksumCond data →
       signatureCond data → ¬ fileSizeCond data →
       headerItem data = .error (.badDexFile msgBadFileSize)) ∧
    (magicCond data → versionCond data → byte7Cond data → checksumCond data →
       signatureCond data → fileSizeCond data → ¬ headerSizeCond data →
       headerItem data = .error (.badDexFile msgBadHeaderSize)) ∧
    (magicCond data → versionCond data → byte7Cond data → checksumCond data →
       signatureCond data → fileSizeCond data → headerSizeCond data → ¬ endianCond data →
       headerItem data = .error (.badDexFile msgBadEndian)) := by
  refine ⟨headerItem_ok_iff data, ?_, ?_, ?_, ?_, ?_, ?_, ?_, ?_⟩
  · exact headerItem_err_magic
  · intro h1 h2
    exact headerItem_err_version h1 (Option.not_isSome_iff_eq_none.mp h2)
  · intro h1 h2 h3
    cases hb : data[7]? with
    | none =>
      obtain ⟨ver, hver⟩ := Option.isSome_iff_exists.mp h2
      exact Or.inl (headerItem_err_byte7_missing h1 hver hb)
    | some b7 =>
      obtain ⟨ver, hver⟩ := Option.isSome_iff_exists.mp h2
      have hb7 : b7 ≠ 0 := by
        intro hz
        subst hz
        exact h3 hb
      exact Or.inr (headerItem_err_byte7 h1 hver hb hb7)
  · exact headerItem_err_checksum
  · exact headerItem_err_signature
  · exact headerItem_err_file_size
  · exact headerItem_err_header_size
  · exact headerItem_err_endian

theorem c1_header_amended_witness :
    headerItem ([] : List Nat) = .error (.badDexFile msgBadMagic) ∧
    resOk (headerItem validBuf) = true :=
  ⟨(c1_header_amended []).2.1 (by decide),
   ((c1_header_amended validBuf).1).mpr
     ⟨by decide, by decide, by decide, by decide, by decide, by decide, by decide,
      Or.inl (by decide)⟩⟩

/-- C8: for every byte buffer that decodes successfully, changing any single
byte at position `i ≥ 8` — the stored checksum field [8,12), the stored
signature field [12,32), or any content byte covered by the checksum or
signature computations (the checksum covers all of [12,end)) — makes decode
fail with a StructuralError (`BadDexFileError`); it never succeeds on the
corrupted buffer.  Every such change is caught by the adler32 checksum
comparison, which precedes every later check. -/
theorem c8_corruption_detected (data : List Nat) (i b : Nat)
    (hok : resOk (dexParser data) = true)
    (hbytes : ∀ x ∈ data, x < 256)
    (hi8 : 8 ≤ i) (hilen : i < data.length)
    (hblt : b < 256) (hne : b ≠ data.getD i 0) :
    ∃ m, dexParser (data.set i b) = .error (.badDexFile m) := by
  obtain ⟨p, hp⟩ := resOk_iff.mp hok
  unfold dexParser at hp
  obtain ⟨hd, hhd, _⟩ := except_bind_ok hp
  have hcond := (headerItem_ok_iff data).mp (by rw [hhd]; rfl)
  obtain ⟨hmag, hver, hb7, hchk, hsig, hfs, hhs, hend⟩ := hcond
  have hlen : 44 ≤ data.length := endianCond_length hbytes hend
  have hmag2 : magicCond (data.set i b) := by
    show pySlice (data.set i b) 0 4 = MAGIC
    rw [pySlice_set_of_ge (by omega)]
    exact hmag
  have hver2 : versionCond (data.set i b) := by
    show (utf8Decode (pySlice (data.set i b) 4 7)).isSome = true
    rw [pySlice_set_of_ge (by omega)]
    exact hver
  have hb72 : byte7Cond (data.set i b) := by
    show (data.set i b)[7]? = some 0
    rw [List.getElem?_set_ne (by omega : i ≠ 7)]
    exact hb7
  have hchk2 : ¬ checksumCond (data.set i b) := by
    by_cases hc12 : i < 12
    · intro hc2
      have hc3 : adler32 ((data.set i b).drop 12) =
          fromBytesLE (pySlice (data.set i b) 8 12) := hc2
      rw [drop_set_of_lt hc12, pySlice_set_mid (by omega) (by omega)] at hc3
      have hjlen : i - 8 < (pySlice data 8 12).length := by
        rw [pySlice_length]
        omega
      have hgd : (pySlice data 8 12).getD (i - 8) 0 = data.getD i 0 := by
        rw [getD_pySlice _ _ _ _ (by omega)]
        congr 1
        omega
      have hdiff := fromBytesLE_set_ne hjlen (by rw [hgd]; exact hne)
      exact hdiff (by rw [← hc3, hchk])
    · intro hc2
      have hc3 : adler32 ((data.set i b).drop 12) =
          fromBytesLE (pySlice (data.set i b) 8 12) := hc2
      rw [drop_set_of_ge (show 12 ≤ i by omega), pySlice_set_of_ge (by omega)] at hc3
      have hj : i - 12 < (data.drop 12).length := by
        rw [List.length_drop]
        omega
      have hgd : (data.drop 12).getD (i - 12) 0 = data.getD i 0 := by
        rw [List.getD_eq_getElem?_getD, List.getD_eq_getElem?_getD, List.getElem?_drop]
        congr 2
        omega
      have hmem : data.getD i 0 ∈ data := by
        have hgi : data.getD i 0 = data.get ⟨i, hilen⟩ := by
          rw [List.getD_eq_getElem?_getD, List.getElem?_eq_getElem hilen]
          rfl
        rw [hgi]
        exact List.get_mem data i hilen
      have hbound : (data.drop 12).getD (i - 12) 0 < 65521 := by
        rw [hgd]
        have := hbytes _ hmem
        omega
      have hadler := @adler32_set_ne (data.drop 12) (i - 12) b hj hbound
        (by omega) (by rw [hgd]; exact hne)
      exact hadler (by rw [hc3, hchk])
  refine ⟨msgBadChecksum, ?_⟩
  unfold dexParser
  rw [headerItem_err_checksum hmag2 hver2 hb72 hchk2]
  rfl

theorem c8_corruption_detected_witness :
    resOk (dexParser validBuf) = true ∧
    (∃ m, dexParser (validBuf.set 20 171) = .error (.badDexFile m)) :=
  ⟨by decide,
   c8_corruption_detected validBuf 20 171 (by decide) (by decide) (by decide)
     (by decide) (by decide) (by decide)⟩

/-- C7: the five primitive id tables are built by pure slicing, so
construction succeeds and enumerates every declared record no matter what
index values the records contain (first conjunct: the type-id table always
has exactly the declared number of entries, for any buffer, offset and
count); an embedded index is only checked when a resolver method is called:
`TypeIdItem.get_string_id_item` returns the referenced table entry whenever
the index is in range and raises `IndexError` (the spec's `ReferenceError`)
exactly when it is not; and a successful decode always carries fully
enumerated tables of the declared sizes. -/
theorem c7_lazy_reference_errors :
    (∀ (data : List Nat) (off size : Nat), (mkTypeIds data off size).length = size) ∧
    (∀ (t : TypeIdItem) (string_ids : List StringIdItem)
       (h : t.descriptor_idx < string_ids.length),
       TypeIdItem.get_string_id_item t string_ids = .ok string_ids[t.descriptor_idx]) ∧
    (∀ (t : TypeIdItem) (string_ids : List StringIdItem),
       string_ids.length ≤ t.descriptor_idx →
       TypeIdItem.get_string_id_item t string_ids = .error .indexError) ∧
    (∀ (data : List Nat) (p : DexParser), dexParser data = .ok p →
       p.string_ids.length = p.header.string_ids_size ∧
       p.type_ids.length = p.header.type_ids_size ∧
       p.proto_ids.length = p.header.proto_ids_size ∧
       p.field_ids.length = p.header.field_ids_size ∧
       p.method_ids.length = p.header.method_ids_size) := by
  refine ⟨?_, ?_, ?_, ?_⟩
  · intro data off size
    unfold mkTypeIds
    rw [List.length_map, List.length_range]
  · intro t string_ids h
    unfold TypeIdItem.get_string_id_item
    rw [dif_pos h]
  · intro t string_ids h
    unfold TypeIdItem.get_string_id_item
    rw [dif_neg (by omega)]
  · intro data p hp
    unfold dexParser at hp
    obtain ⟨hd, hhd, h2⟩ := except_bind_ok hp
    obtain ⟨ml, hml, h3⟩ := except_bind_ok h2
    obtain ⟨cds, hcds, h4⟩ := except_bind_ok h3
    have hrec : p = ({ full_data := data, header := hd,
                       map_list := ml,
                       string_ids := mkStringIds data hd.string_ids_off hd.string_ids_size,
                       type_ids := mkTypeIds data hd.type_ids_off hd.type_ids_size,
                       proto_ids := mkProtoIds data hd.proto_ids_off hd.proto_ids_size,
                       field_ids := mkFieldIds data hd.field_ids_off hd.field_ids_size,
                       method_ids := mkMethodIds data hd.method_ids_off hd.method_ids_size,
                       class_defs := cds } : DexParser) := by
      have := h4
      simp only [pure, Except.pure, Except.ok.injEq] at this
      exact this.symm
    subst hrec
    simp only [mkStringIds, mkTypeIds, mkProtoIds, mkFieldIds, mkMethodIds]
    refine ⟨?_, ?_, ?_, ?_, ?_⟩ <;> rw [List.length_map, List.length_range]

theorem c7_lazy_reference_errors_witness :
    (mkTypeIds [] 0 3).length = 3 ∧
    TypeIdItem.get_string_id_item ⟨0⟩ [⟨5⟩] = .ok ⟨5⟩ ∧
    TypeIdItem.get_string_id_item ⟨2⟩ [⟨5⟩] = .error .indexError ∧
    (dexParser validBuf).map (fun p => decide (p.type_ids.length = p.header.type_ids_size))
      = .ok true := by
  refine ⟨c7_lazy_reference_errors.1 [] 0 3,
          c7_lazy_reference_errors.2.1 ⟨0⟩ [⟨5⟩] (by decide),
          c7_lazy_reference_errors.2.2.1 ⟨2⟩ [⟨5⟩] (by decide), ?_⟩
  cases h : dexParser validBuf with
  | ok p =>
    have hlen := (c7_lazy_reference_errors.2.2.2 validBuf p h).2.1
    simp [Except.map, hlen]
  | error e =>
    have hres : resOk (dexParser validBuf) = true := by decide
    rw [h] at hres
    exact Bool.noConfusion hres

/-- C10: the five primitive id table builders are total: for every buffer,
declared offset and count — including when `offset + count × stride`
exceeds the buffer length — each table has exactly the declared number of
records; a record sliced entirely past the end of the buffer is built from
the empty truncated slice, and every integer field read from it decodes to
0, so fully out-of-range records have all fields equal to 0. -/
theorem c10_tables_truncation :
    (∀ (data : List Nat) (start size : Nat),
       (mkStringIds data start size).length = size ∧
       (mkTypeIds data start size).length = size ∧
       (mkProtoIds data start size).length = size ∧
       (mkFieldIds data start size).length = size ∧
       (mkMethodIds data start size).length = size) ∧
    (∀ (data : List Nat) (start size i : Nat), i < size →
       data.length ≤ start + 4 * i →
       (mkStringIds data start size)[i]? = some { string_data_off := 0 }) ∧
    (∀ (data : List Nat) (start size i : Nat), i < size →
       data.length ≤ start + 4 * i →
       (mkTypeIds data start size)[i]? = some { descriptor_idx := 0 }) ∧
    (∀ (data : List Nat) (start size i : Nat), i < size →
       data.length ≤ start + 12 * i →
       (mkProtoIds data start size)[i]? =
         some { shorty_idx := 0, return_type_idx := 0, parameters_off := 0 }) ∧
    (∀ (data : List Nat) (start size i : Nat), i < size →
       data.length ≤ start + 8 * i →
       (mkFieldIds data start size)[i]? =
         some { class_idx := 0, type_idx := 0, name_idx := 0 }) ∧
    (∀ (data : List Nat) (start size i : Nat), i < size →
       data.length ≤ start + 8 * i →
       (mkMethodIds data start size)[i]? =
         some { class_idx := 0, proto_idx := 0, name_idx := 0 }) := by
  refine ⟨?_, ?_, ?_, ?_, ?_, ?_⟩
  · intro data start size
    refine ⟨?_, ?_, ?_, ?_, ?_⟩ <;>
      simp only [mkStringIds, mkTypeIds, mkProtoIds, mkFieldIds, mkMethodIds] <;>
      rw [List.length_map, List.length_range]
  · intro data start size i hi hout
    unfold mkStringIds
    rw [List.getElem?_map, List.getElem?_range hi]
    simp only [Option.map_some']
    rw [pySlice_eq_nil_of_ge hout]
    rfl
  · intro data start size i hi hout
    unfold mkTypeIds
    rw [List.getElem?_map, List.getElem?_range hi]
    simp only [Option.map_some']
    rw [pySlice_eq_nil_of_ge hout]
    rfl
  · intro data start size i hi hout
    unfold mkProtoIds
    rw [List.getElem?_map, List.getElem?_range hi]
    simp only [Option.map_some']
    rw [pySlice_eq_nil_of_ge hout]
    rfl
  · intro data start size i hi hout
    unfold mkFieldIds
    rw [List.getElem?_map, List.getElem?_range hi]
    simp only [Option.map_some']
    rw [pySlice_eq_nil_of_ge hout]
    rfl
  · intro data start size i hi hout
    unfold mkMethodIds
    rw [List.getElem?_map, List.getElem?_range hi]
    simp only [Option.map_some']
    rw [pySlice_eq_nil_of_ge hout]
    rfl

theorem c10_tables_truncation_witness :
    (mkProtoIds [1, 2, 3] 2 2).length = 2 ∧
    (mkProtoIds [1, 2, 3] 2 2)[1]? =
      some { shorty_idx := 0, return_type_idx := 0, parameters_off := 0 } :=
  ⟨(c10_tables_truncation.1 [1, 2, 3] 2 2).2.2.1,
   c10_tables_truncation.2.2.2.1 [1, 2, 3] 2 2 1 (by decide) (by decide)⟩

/-- C2, code bug: on the string-data record `03 61 62 C3 A9` (declared
UTF-16 length 3, UTF-8 payload "abé" of 4 bytes) the decoder truncates the
payload to `data[1 : 1 + utf16size]` = `61 62 C3`, cutting the two-byte
sequence `C3 A9` in half, and fails with a `UnicodeDecodeError` — while the
full payload decodes cleanly to the code points `[97, 98, 233]`.  The claim
(and §4.4 of the spec) say the declared length is informational only and
must not bound the decode; the code uses it as a byte bound. -/
theorem c2_string_truncation_bug :
    stringDataItem [3, 97, 98, 0xC3, 0xA9] = .error .unicodeDecodeError ∧
    utf8Decode [97, 98, 0xC3, 0xA9] = some [97, 98, 233] ∧
    pySlice [3, 97, 98, 0xC3, 0xA9] 1 (1 + 3) = [97, 98, 0xC3] :=
  ⟨by decide, by decide, by decide⟩

/-- C5, code bug: for the encoded value `22 FF 7F` (header byte 0x22 =
format `VALUE_SHORT` with the spec-mandated arg `(0x22 >> 5) & 0x7 = 1`,
payload `FF 7F`), the code computes `value_arg = data[0] & (0xe0 >> 5) =
0x22 & 7 = 2` because Python's `>>` binds tighter than `&`, and its
`VALUE_SHORT` branch assigns no value at all (`value = none`), where the
claim demands arg 1 and the decoded signed 16-bit value 32767 (which is
what little-endian signed decoding of the payload yields). -/
theorem c5_encoded_value_arg_bug :
    encodedValue [0x22, 0xFF, 0x7F] =
      .ok { value_type := 0x02, value_arg := 2, value := none } ∧
    specArg 0x22 = 1 ∧
    fromBytesLESigned [0xFF, 0x7F] = 32767 :=
  ⟨by decide, by decide, by decide⟩

/-- C9: for every input byte sequence, constructing an `EncodedAnnotation`
raises (after parsing the leading varint it calls the nonexistent
`Uleb128.get_bytes`), constructing an `AnnotationOffItem` raises (it
assigns `annotations_off`, absent from its `__slots__`), constructing an
`AnnotationItem` raises (its `EncodedAnnotation` always does), and an
`AnnotationSetItem` can only be decoded successfully with an empty entry
list. -/
theorem c9_annotation_subsystem_broken (data : List Nat) :
    resErr (encodedAnnotationData data) = true ∧
    resErr (annotationOffItem data) = true ∧
    resErr (annotationItem data) = true ∧
    (∀ s : AnnotationSetItem, annotationSetItem data = .ok s → s.entries = []) := by
  have hea : ∀ d : List Nat, resErr (encodedAnnotationData d) = true := by
    intro d
    unfold encodedAnnotationData
    cases h : uleb128 d with
    | ok u => simp [h, resErr, Bind.bind, Except.bind]
    | error e => simp [h, resErr, Bind.bind, Except.bind]
  refine ⟨hea data, rfl, ?_, ?_⟩
  · unfold annotationItem
    by_cases hv : fromBytesLE (pySlice data 0 1) ∈ visibilityValues
    · rw [if_pos hv]
      obtain ⟨m, hm⟩ := resErr_iff.mp (hea (data.drop 1))
      rw [List.drop_one] at hm
      simp [hm, resErr, Bind.bind, Except.bind]
    · rw [if_neg hv]
      rfl
  · intro s hs
    unfold annotationSetItem at hs
    cases hsz : fromBytesLE (pySlice data 0 4) with
    | zero =>
      rw [hsz] at hs
      simp only [List.range_zero, List.mapM_nil, pure, Except.pure, Bind.bind,
        Except.bind, Except.ok.injEq] at hs
      rw [← hs]
    | succ n =>
      rw [hsz] at hs
      have hs2 : (List.mapM
          (fun i => annotationOffItem (pySlice data (4 + 4 * i) (4 + 4 * i + 4)))
          (List.range (n + 1)) >>= fun entries =>
          (pure { size := n + 1, entries := entries } :
            Except PyError AnnotationSetItem)) = .ok s := hs
      rw [List.range_succ_eq_map] at hs2
      simp only [List.mapM_cons, annotationOffItem, Bind.bind, Except.bind] at hs2
      exact Except.noConfusion hs2

theorem c9_annotation_subsystem_broken_witness :
    resErr (encodedAnnotationData [0]) = true ∧
    ({ size := 0, entries := [] } : AnnotationSetItem).entries = [] :=
  ⟨(c9_annotation_subsystem_broken [0]).1,
   (c9_annotation_subsystem_broken [0, 0, 0, 0]).2.2.2 { size := 0, entries := [] }
     (by decide)⟩

/-- C6: each optional field of a class definition checks its own sentinel —
offset fields (interfaces, annotations, class data, static values) treat 0
as absent, the superclass and source-file indices treat the all-ones
`NO_INDEX` as absent — and a sentinel resolves to "absent" for every buffer
and table, without any read of the buffer; a non-sentinel index in range
resolves to the referenced table entry, and a non-sentinel offset to the
structure parsed at that offset. -/
theorem c6_sentinel_resolution (c : ClassDefItem) :
    (c.superclass_idx = NO_INDEX →
       ∀ type_ids : List TypeIdItem, c.get_superclass_type_id_item type_ids = .ok none) ∧
    (c.superclass_idx ≠ NO_INDEX →
       ∀ (type_ids : List TypeIdItem) (h : c.superclass_idx < type_ids.length),
       c.get_superclass_type_id_item type_ids = .ok (some type_ids[c.superclass_idx])) ∧
    (c.source_file_idx = NO_INDEX →
       ∀ string_ids : List StringIdItem,
       c.get_source_file_string_id_item string_ids = .ok none) ∧
    (c.source_file_idx ≠ NO_INDEX →
       ∀ (string_ids : List StringIdItem) (h : c.source_file_idx < string_ids.length),
       c.get_source_file_string_id_item string_ids = .ok (some string_ids[c.source_file_idx])) ∧
    (c.interfaces_off = 0 → ∀ data : List Nat, c.get_interfaces_type_list data = none) ∧
    (c.interfaces_off ≠ 0 → ∀ data : List Nat,
       c.get_interfaces_type_list data = some (typeList (data.drop c.interfaces_off))) ∧
    (c.annotations_off = 0 → ∀ data : List Nat,
       c.get_annotations_annotation_directory_item data = none) ∧
    (c.annotations_off ≠ 0 → ∀ data : List Nat,
       c.get_annotations_annotation_directory_item data =
         some (annotationDirectoryItem (data.drop c.annotations_off))) ∧
    (c.class_data_off = 0 → ∀ data : List Nat,
       c.get_class_data_class_data_item data = .ok none) ∧
    (c.class_data_off ≠ 0 → ∀ data : List Nat,
       c.get_class_data_class_data_item data =
         (classDataItem (data.drop c.class_data_off)).map some) ∧
    (c.static_values_off = 0 → ∀ data : List Nat,
       c.get_static_values_encoded_array_item data = none) ∧
    (c.static_values_off ≠ 0 → ∀ data : List Nat,
       c.get_static_values_encoded_array_item data =
         some (encodedArrayItem (data.drop c.static_values_off))) := by
  refine ⟨?_, ?_, ?_, ?_, ?_, ?_, ?_, ?_, ?_, ?_, ?_, ?_⟩
  · intro hs type_ids
    unfold ClassDefItem.get_superclass_type_id_item
    rw [if_pos hs]
  · intro hs type_ids h
    unfold ClassDefItem.get_superclass_type_id_item
    rw [if_neg hs, dif_pos h]
  · intro hs string_ids
    unfold ClassDefItem.get_source_file_string_id_item
    rw [if_pos hs]
  · intro hs string_ids h
    unfold ClassDefItem.get_source_file_string_id_item
    rw [if_neg hs, dif_pos h]
  · intro hs data
    unfold ClassDefItem.get_interfaces_type_list
    rw [if_pos hs]
  · intro hs data
    unfold ClassDefItem.get_interfaces_type_list
    rw [if_neg hs]
  · intro hs data
    unfold ClassDefItem.get_annotations_annotation_directory_item
    rw [if_pos hs]
  · intro hs data
    unfold ClassDefItem.get_annotations_annotation_directory_item
    rw [if_neg hs]
  · intro hs data
    unfold ClassDefItem.get_class_data_class_data_item
    rw [if_pos hs]
  · intro hs data
    unfold ClassDefItem.get_class_data_class_data_item
    rw [if_neg hs]
  · intro hs data
    unfold ClassDefItem.get_static_values_encoded_array_item
    rw [if_pos hs]
  · intro hs data
    unfold ClassDefItem.get_static_values_encoded_array_item
    rw [if_neg hs]

theorem c6_sentinel_resolution_witness :
    ClassDefItem.get_superclass_type_id_item
      ⟨0, 0, NO_INDEX, 0, NO_INDEX, 0, 0, 0⟩ [] = .ok none ∧
    ClassDefItem.get_interfaces_type_list
      ⟨0, 0, NO_INDEX, 0, NO_INDEX, 0, 0, 0⟩ [1, 2, 3] = none ∧
    ClassDefItem.get_class_data_class_data_item
      ⟨0, 0, NO_INDEX, 0, NO_INDEX, 0, 0, 0⟩ [] = .ok none ∧
    ClassDefItem.get_superclass_type_id_item
      ⟨0, 0, 0, 4, 0, 0, 0, 0⟩ [⟨7⟩] = .ok (some ⟨7⟩) ∧
    ClassDefItem.get_interfaces_type_list
      ⟨0, 0, 0, 4, 0, 0, 0, 0⟩ [0, 0, 0, 0, 0, 0, 0, 0] =
      some (typeList ([0, 0, 0, 0, 0, 0, 0, 0].drop 4)) :=
  ⟨(c6_sentinel_resolution ⟨0, 0, NO_INDEX, 0, NO_INDEX, 0, 0, 0⟩).1 rfl [],
   (c6_sentinel_resolution ⟨0, 0, NO_INDEX, 0, NO_INDEX, 0, 0, 0⟩).2.2.2.2.1 rfl [1, 2, 3],
   (c6_sentinel_resolution ⟨0, 0, NO_INDEX, 0, NO_INDEX, 0, 0, 0⟩).2.2.2.2.2.2.2.2.1 rfl [],
   (c6_sentinel_resolution ⟨0, 0, 0, 4, 0, 0, 0, 0⟩).2.1 (by decide) [⟨7⟩] (by decide),
   (c6_sentinel_resolution ⟨0, 0, 0, 4, 0, 0, 0, 0⟩).2.2.2.2.2.1 (by decide)
     [0, 0, 0, 0, 0, 0, 0, 0]⟩

/- The spec-side LEB128 encoder: unfolding and bounds. -/
theorem ulebEncodeGo_congr : ∀ (f1 f2 n : Nat), n < f1 → n < f2 →
    ulebEncodeGo f1 n = ulebEncodeGo f2 n
  | 0, _, n, h1, _ => by omega
  | _ + 1, 0, n, _, h2 => by omega
  | f1 + 1, f2 + 1, n, h1, h2 => by
    simp only [ulebEncodeGo]
    by_cases h : n < 128
    · rw [if_pos h, if_pos h]
    · rw [if_neg h, if_neg h]
      have hd : n / 128 < n := Nat.div_lt_self (by omega) (by omega)
      rw [ulebEncodeGo_congr f1 f2 (n / 128) (by omega) (by omega)]

theorem ulebEncode_eq (n : Nat) : ulebEncode n =
    if n < 128 then [n] else (n % 128 + 0x80) :: ulebEncode (n / 128) := by
  show ulebEncodeGo (n + 1) n = _
  by_cases h : n < 128
  · simp only [ulebEncodeGo, if_pos h]
  · simp only [ulebEncodeGo, if_neg h]
    have hd : n / 128 < n := Nat.div_lt_self (by omega) (by omega)
    rw [ulebEncodeGo_congr n (n / 128 + 1) (n / 128) (by omega) (by omega)]
    rfl

theorem ulebEncode_length_pos (n : Nat) : 0 < (ulebEncode n).length := by
  rw [ulebEncode_eq]
  split <;> simp

theorem ulebEncode_length_le : ∀ (k n : Nat), 0 < k → n < 2 ^ (7 * k) →
    (ulebEncode n).length ≤ k
  | 0, n, hk, _ => by omega
  | k + 1, n, _, hn => by
    rw [ulebEncode_eq]
    by_cases h : n < 128
    · rw [if_pos h]
      simp
    · rw [if_neg h]
      simp only [List.length_cons]
      cases k with
      | zero =>
        exfalso
        have : (2 : Nat) ^ (7 * 1) = 128 := by norm_num
        omega
      | succ k2 =>
        have hdiv : n / 128 < 2 ^ (7 * (k2 + 1)) := by
          rw [Nat.div_lt_iff_lt_mul (by norm_num)]
          calc n < 2 ^ (7 * (k2 + 1 + 1)) := hn
          _ = 2 ^ (7 * (k2 + 1)) * 128 := by
              rw [show 7 * (k2 + 1 + 1) = 7 * (k2 + 1) + 7 by omega, Nat.pow_add]
        have := ulebEncode_length_le (k2 + 1) (n / 128) (by omega) hdiv
        omega

theorem ulebScan_encode (n : Nat) : ∀ (rest : List Nat) (idx : Nat),
    idx + (ulebEncode n).length ≤ 5 →
    ulebScan (ulebEncode n ++ rest) idx = .ok (idx + (ulebEncode n).length) := by
  induction n using Nat.strong_induction_on with
  | _ n ih =>
    intro rest idx hle
    rw [ulebEncode_eq] at hle ⊢
    by_cases h : n < 128
    · rw [if_pos h] at hle ⊢
      simp only [List.singleton_append, List.length_singleton] at hle ⊢
      simp only [ulebScan]
      rw [if_pos (and_128_eq_zero h)]
    · rw [if_neg h] at hle ⊢
      simp only [List.cons_append, List.length_cons] at hle ⊢
      have hpos := ulebEncode_length_pos (n / 128)
      have hb : ¬ (n % 128 + 0x80) &&& 0x80 = 0 :=
        and_128_ne_zero (by omega) (by have := Nat.mod_lt n (y := 128) (by omega); omega)
      simp only [ulebScan]
      rw [if_neg hb, if_neg (show ¬ idx = 4 by omega)]
      rw [ih (n / 128) (Nat.div_lt_self (by omega) (by omega)) rest (idx + 1) (by omega)]
      congr 1
      omega

theorem specValueAdd_encode (n : Nat) : specValueAdd (ulebEncode n) = n := by
  induction n using Nat.strong_induction_on with
  | _ n ih =>
    rw [ulebEncode_eq]
    by_cases h : n < 128
    · rw [if_pos h]
      simp only [specValueAdd, and_127_eq_mod]
      have : n % 128 = n := Nat.mod_eq_of_lt h
      omega
    · rw [if_neg h]
      simp only [specValueAdd, and_127_eq_mod,
        ih (n / 128) (Nat.div_lt_self (by omega) (by omega))]
      have h1 : (n % 128 + 128) % 128 = n % 128 := by omega
      have h2 : (2 : Nat) ^ 7 = 128 := by norm_num
      rw [h1, h2]
      omega

theorem uleb128_encode (n : Nat) (rest : List Nat) (h : n < 2 ^ 35) :
    uleb128 (ulebEncode n ++ rest) = .ok (mkUlebOf n) := by
  have hlen : (ulebEncode n).length ≤ 5 := by
    refine ulebEncode_length_le 5 n (by norm_num) ?_
    have : (2 : Nat) ^ (7 * 5) = 2 ^ 35 := by norm_num
    omega
  unfold uleb128
  rw [ulebScan_encode n rest 0 (by omega)]
  simp only [Except.map]
  rw [Nat.zero_add, List.take_left]
  rfl

theorem ulebInt_mkUlebOf (n : Nat) : ulebInt (mkUlebOf n) = n := by
  rw [ulebInt_eq_spec]
  exact specValueAdd_encode n

theorem uleb_drop_left (n : Nat) (rest : List Nat) :
    (ulebEncode n ++ rest).drop (mkUlebOf n).size = rest := by
  rw [show (mkUlebOf n).size = (ulebEncode n).length from rfl, List.drop_left]

theorem drop_uleb_cancel {data : List Nat} {off n : Nat} {post : List Nat}
    (h : data.drop off = ulebEncode n ++ post) :
    data.drop (off + (mkUlebOf n).size) = post := by
  rw [show (mkUlebOf n).size = (ulebEncode n).length from rfl, ← List.drop_drop, h,
    List.drop_left]

theorem drop_append_cancel {data : List Nat} {off : Nat} {pre post : List Nat}
    (h : data.drop off = pre ++ post) :
    data.drop (off + pre.length) = post := by
  rw [← List.drop_drop, h, List.drop_left]

theorem encodedField_encode (p : Nat × Nat) (rest : List Nat)
    (h1 : p.1 < 2 ^ 35) (h2 : p.2 < 2 ^ 35) :
    encodedField (encFieldRec p ++ rest) = .ok (mkEncodedField p) := by
  unfold encodedField
  rw [show encFieldRec p ++ rest = ulebEncode p.1 ++ (ulebEncode p.2 ++ rest) by
    unfold encFieldRec; rw [List.append_assoc]]
  rw [uleb128_encode p.1 _ h1]
  simp only [Bind.bind, Except.bind]
  rw [uleb_drop_left, uleb128_encode p.2 rest h2]
  simp only [pure, Except.pure, Except.ok.injEq]
  unfold mkEncodedField mkUlebOf encFieldRec
  simp [List.length_append]

theorem encodedMethod_encode (t : Nat × Nat × Nat) (rest : List Nat)
    (h1 : t.1 < 2 ^ 35) (h2 : t.2.1 < 2 ^ 35) (h3 : t.2.2 < 2 ^ 35) :
    encodedMethod (encMethodRec t ++ rest) = .ok (mkEncodedMethod t) := by
  unfold encodedMethod
  rw [show encMethodRec t ++ rest =
      ulebEncode t.1 ++ (ulebEncode t.2.1 ++ (ulebEncode t.2.2 ++ rest)) by
    unfold encMethodRec; rw [List.append_assoc, List.append_assoc]]
  rw [uleb128_encode t.1 _ h1]
  simp only [Bind.bind, Except.bind]
  rw [uleb_drop_left, uleb128_encode t.2.1 _ h2]
  simp only [Bind.bind, Except.bind]
  have hd1 : (ulebEncode t.1 ++ (ulebEncode t.2.1 ++ (ulebEncode t.2.2 ++ rest))).drop
      (mkUlebOf t.1).size = ulebEncode t.2.1 ++ (ulebEncode t.2.2 ++ rest) :=
    uleb_drop_left _ _
  rw [drop_uleb_cancel hd1, uleb128_encode t.2.2 rest h3]
  simp only [pure, Except.pure, Except.ok.injEq]
  unfold mkEncodedMethod mkUlebOf encMethodRec
  simp [List.length_append]
  omega

theorem parseEncodedFields_encode :
    ∀ (ps : List (Nat × Nat)) (data rest : List Nat) (off : Nat),
    data.drop off = (ps.map encFieldRec).flatten ++ rest →
    (∀ p ∈ ps, p.1 < 2 ^ 35 ∧ p.2 < 2 ^ 35) →
    parseEncodedFields data off ps.length =
      .ok (ps.map mkEncodedField, off + ((ps.map encFieldRec).flatten).length)
  | [], data, rest, off, hdrop, hb => by
    simp only [List.map_nil, List.flatten_nil, List.length_nil, parseEncodedFields,
      Nat.add_zero]
  | p :: ps, data, rest, off, hdrop, hb => by
    simp only [List.map_cons, List.flatten_cons, List.length_cons] at hdrop ⊢
    rw [List.append_assoc] at hdrop
    simp only [parseEncodedFields]
    rw [hdrop, encodedField_encode p _ (hb p (List.mem_cons_self p ps)).1
      (hb p (List.mem_cons_self p ps)).2]
    simp only [Bind.bind, Except.bind]
    have hsz : (mkEncodedField p).size = (encFieldRec p).length := rfl
    have hdrop2 : data.drop (off + (mkEncodedField p).size) =
        (ps.map encFieldRec).flatten ++ rest := by
      rw [hsz, ← List.drop_drop, hdrop, List.drop_left]
    rw [parseEncodedFields_encode ps data rest _ hdrop2
      (fun q hq => hb q (List.mem_cons_of_mem p hq))]
    simp only [pure, Except.pure, Except.ok.injEq, Prod.mk.injEq, List.length_append]
    exact ⟨trivial, by omega⟩

theorem parseEncodedMethods_encode :
    ∀ (ts : List (Nat × Nat × Nat)) (data rest : List Nat) (off : Nat),
    data.drop off = (ts.map encMethodRec).flatten ++ rest →
    (∀ t ∈ ts, t.1 < 2 ^ 35 ∧ t.2.1 < 2 ^ 35 ∧ t.2.2 < 2 ^ 35) →
    parseEncodedMethods data off ts.length =
      .ok (ts.map mkEncodedMethod, off + ((ts.map encMethodRec).flatten).length)
  | [], data, rest, off, hdrop, hb => by
    simp only [List.map_nil, List.flatten_nil, List.length_nil, parseEncodedMethods,
      Nat.add_zero]
  | t :: ts, data, rest, off, hdrop, hb => by
    simp only [List.map_cons, List.flatten_cons, List.length_cons] at hdrop ⊢
    rw [List.append_assoc] at hdrop
    simp only [parseEncodedMethods]
    rw [hdrop, encodedMethod_encode t _ (hb t (List.mem_cons_self t ts)).1
      (hb t (List.mem_cons_self t ts)).2.1 (hb t (List.mem_cons_self t ts)).2.2]
    simp only [Bind.bind, Except.bind]
    have hsz : (mkEncodedMethod t).size = (encMethodRec t).length := rfl
    have hdrop2 : data.drop (off + (mkEncodedMethod t).size) =
        (ts.map encMethodRec).flatten ++ rest := by
      rw [hsz, ← List.drop_drop, hdrop, List.drop_left]
    rw [parseEncodedMethods_encode ts data rest _ hdrop2
      (fun q hq => hb q (List.mem_cons_of_mem t hq))]
    simp only [pure, Except.pure, Except.ok.injEq, Prod.mk.injEq, List.length_append]
    exact ⟨trivial, by omega⟩

theorem classDataItem_encode
    (sf fi : List (Nat × Nat)) (dm vm : List (Nat × Nat × Nat))
    (hsf : ∀ p ∈ sf, p.1 < 2 ^ 35 ∧ p.2 < 2 ^ 35)
    (hfi : ∀ p ∈ fi, p.1 < 2 ^ 35 ∧ p.2 < 2 ^ 35)
    (hdm : ∀ t ∈ dm, t.1 < 2 ^ 35 ∧ t.2.1 < 2 ^ 35 ∧ t.2.2 < 2 ^ 35)
    (hvm : ∀ t ∈ vm, t.1 < 2 ^ 35 ∧ t.2.1 < 2 ^ 35 ∧ t.2.2 < 2 ^ 35)
    (h1 : sf.length < 2 ^ 35) (h2 : fi.length < 2 ^ 35)
    (h3 : dm.length < 2 ^ 35) (h4 : vm.length < 2 ^ 35) :
    classDataItem (encClassData sf fi dm vm) =
      .ok { static_fields_size := mkUlebOf sf.length,
            instance_fields_size := mkUlebOf fi.length,
            direct_mehtods_size := mkUlebOf dm.length,
            virtual_methods_size := mkUlebOf vm.length,
            static_fields := sf.map mkEncodedField,
            instance_fields := fi.map mkEncodedField,
            direct_mehtods := dm.map mkEncodedMethod,
            virtual_methods := vm.map mkEncodedMethod } := by
  unfold classDataItem encClassData
  rw [uleb128_encode _ _ h1]
  simp only [Bind.bind, Except.bind]
  have hd1 := uleb_drop_left sf.length
    (ulebEncode fi.length ++ (ulebEncode dm.length ++ (ulebEncode vm.length ++
     ((sf.map encFieldRec).flatten ++ ((fi.map encFieldRec).flatten ++
      ((dm.map encMethodRec).flatten ++ (vm.map encMethodRec).flatten))))))
  rw [hd1, uleb128_encode _ _ h2]
  simp only [Bind.bind, Except.bind]
  have hd2 := drop_uleb_cancel hd1
  rw [hd2, uleb128_encode _ _ h3]
  simp only [Bind.bind, Except.bind]
  have hd3 := drop_uleb_cancel hd2
  rw [hd3, uleb128_encode _ _ h4]
  simp only [Bind.bind, Except.bind]
  have hd4 := drop_uleb_cancel hd3
  simp only [ulebInt_mkUlebOf]
  rw [parseEncodedFields_encode sf _ _ _ hd4 hsf]
  simp only [Bind.bind, Except.bind]
  have hd5 := drop_append_cancel hd4
  rw [parseEncodedFields_encode fi _ _ _ hd5 hfi]
  simp only [Bind.bind, Except.bind]
  have hd6 := drop_append_cancel hd5
  rw [parseEncodedMethods_encode dm _ _ _ hd6 hdm]
  simp only [Bind.bind, Except.bind]
  have hd7 := drop_append_cancel hd6
  have hd8 := hd7.trans (List.append_nil ((vm.map encMethodRec).flatten)).symm
  rw [parseEncodedMethods_encode vm _ _ _ hd8 hvm]
  rfl

theorem deltaSumF_zero (f : EncodedField) (rest : List EncodedField) :
    deltaSumF (f :: rest) 0 = ulebInt f.field_idx_diff := by
  unfold deltaSumF
  simp

theorem deltaSumF_succ (f : EncodedField) (rest : List EncodedField) (i : Nat) :
    deltaSumF (f :: rest) (i + 1) = ulebInt f.field_idx_diff + deltaSumF rest i := by
  unfold deltaSumF
  rw [List.take_succ_cons]
  simp

theorem deltaSumM_zero (m : EncodedMethod) (rest : List EncodedMethod) :
    deltaSumM (m :: rest) 0 = ulebInt m.method_idx_diff := by
  unfold deltaSumM
  simp

theorem deltaSumM_succ (m : EncodedMethod) (rest : List EncodedMethod) (i : Nat) :
    deltaSumM (m :: rest) (i + 1) = ulebInt m.method_idx_diff + deltaSumM rest i := by
  unfold deltaSumM
  rw [List.take_succ_cons]
  simp

theorem resolveFieldSeq_spec :
    ∀ (fs : List EncodedField) (field_ids : List FieldIdItem) (prev : Nat),
    (∀ i, i < fs.length → prev + deltaSumF fs i < field_ids.length) →
    ∃ L, resolveFieldSeq field_ids prev fs = .ok L ∧ L.length = fs.length ∧
      ∀ i, i < fs.length → L[i]? = field_ids[prev + deltaSumF fs i]?
  | [], fids, prev, _ => ⟨[], rfl, rfl, fun i hi => absurd hi (by simp)⟩
  | f :: rest, fids, prev, h => by
    have h0 : prev + ulebInt f.field_idx_diff < fids.length := by
      have := h 0 (by simp)
      rw [deltaSumF_zero] at this
      exact this
    obtain ⟨L, hL, hlen, hget⟩ := resolveFieldSeq_spec rest fids
      (prev + ulebInt f.field_idx_diff) (fun i hi => by
        have := h (i + 1) (by simp only [List.length_cons]; omega)
        rw [deltaSumF_succ] at this
        omega)
    refine ⟨fids[prev + ulebInt f.field_idx_diff] :: L, ?_, by simp [hlen], ?_⟩
    · unfold resolveFieldSeq
      rw [show EncodedField.get_field f prev fids =
          .ok fids[prev + ulebInt f.field_idx_diff] from by
        unfold EncodedField.get_field
        rw [dif_pos h0]]
      simp only [Bind.bind, Except.bind]
      rw [hL]
      rfl
    · intro i hi
      cases i with
      | zero =>
        rw [deltaSumF_zero]
        simp only [List.getElem?_cons_zero]
        rw [List.getElem?_eq_getElem h0]
      | succ i =>
        simp only [List.getElem?_cons_succ]
        simp only [List.length_cons] at hi
        rw [hget i (by omega), deltaSumF_succ]
        congr 1
        omega

theorem resolveMethodSeq_spec :
    ∀ (ms : List EncodedMethod) (method_ids : List MethodIdItem) (prev : Nat),
    (∀ i, i < ms.length → prev + deltaSumM ms i < method_ids.length) →
    ∃ L, resolveMethodSeq method_ids prev ms = .ok L ∧ L.length = ms.length ∧
      ∀ i, i < ms.length → L[i]? = method_ids[prev + deltaSumM ms i]?
  | [], mids, prev, _ => ⟨[], rfl, rfl, fun i hi => absurd hi (by simp)⟩
  | m :: rest, mids, prev, h => by
    have h0 : prev + ulebInt m.method_idx_diff < mids.length := by
      have := h 0 (by simp)
      rw [deltaSumM_zero] at this
      exact this
    obtain ⟨L, hL, hlen, hget⟩ := resolveMethodSeq_spec rest mids
      (prev + ulebInt m.method_idx_diff) (fun i hi => by
        have := h (i + 1) (by simp only [List.length_cons]; omega)
        rw [deltaSumM_succ] at this
        omega)
    refine ⟨mids[prev + ulebInt m.method_idx_diff] :: L, ?_, by simp [hlen], ?_⟩
    · unfold resolveMethodSeq
      rw [show EncodedMethod.get_method m prev mids =
          .ok mids[prev + ulebInt m.method_idx_diff] from by
        unfold EncodedMethod.get_method
        rw [dif_pos h0]]
      simp only [Bind.bind, Except.bind]
      rw [hL]
      rfl
    · intro i hi
      cases i with
      | zero =>
        rw [deltaSumM_zero]
        simp only [List.getElem?_cons_zero]
        rw [List.getElem?_eq_getElem h0]
      | succ i =>
        simp only [List.getElem?_cons_succ]
        simp only [List.length_cons] at hi
        rw [hget i (by omega), deltaSumM_succ]
        congr 1
        omega

/-- C3: class-data decoding and delta resolution.  First conjunct
(round-trip): for any four record sequences, the encoding that lays out the
four varint counts followed by the four varint-delta record sequences in
the fixed order static fields, instance fields, direct methods, virtual
methods is parsed by `classDataItem` into exactly those four counts and
those four record lists, in that order.  Second and third conjuncts: the
resolution loop (accumulator starting at 0) resolves the record at position
`i` of a field/method sequence to the table entry at absolute index
`deltaSumF/M seq i`, the sum of the deltas of positions 0 through `i`.
Fourth conjunct: `resolveClassData` runs the four sequences each with the
accumulator reset to 0, in the fixed order. -/
theorem c3_class_data_delta_decoding :
    (∀ (sf fi : List (Nat × Nat)) (dm vm : List (Nat × Nat × Nat)),
       (∀ p ∈ sf, p.1 < 2 ^ 35 ∧ p.2 < 2 ^ 35) →
       (∀ p ∈ fi, p.1 < 2 ^ 35 ∧ p.2 < 2 ^ 35) →
       (∀ t ∈ dm, t.1 < 2 ^ 35 ∧ t.2.1 < 2 ^ 35 ∧ t.2.2 < 2 ^ 35) →
       (∀ t ∈ vm, t.1 < 2 ^ 35 ∧ t.2.1 < 2 ^ 35 ∧ t.2.2 < 2 ^ 35) →
       sf.length < 2 ^ 35 → fi.length < 2 ^ 35 →
       dm.length < 2 ^ 35 → vm.length < 2 ^ 35 →
       classDataItem (encClassData sf fi dm vm) =
         .ok { static_fields_size := mkUlebOf sf.length,
               instance_fields_size := mkUlebOf fi.length,
               direct_mehtods_size := mkUlebOf dm.length,
               virtual_methods_size := mkUlebOf vm.length,
               static_fields := sf.map mkEncodedField,
               instance_fields := fi.map mkEncodedField,
               direct_mehtods := dm.map mkEncodedMethod,
               virtual_methods := vm.map mkEncodedMethod }) ∧
    (∀ (fs : List EncodedField) (field_ids : List FieldIdItem),
       (∀ i, i < fs.length → deltaSumF fs i < field_ids.length) →
       ∃ L, resolveFieldSeq field_ids 0 fs = .ok L ∧ L.length = fs.length ∧
         ∀ i, i < fs.length → L[i]? = field_ids[deltaSumF fs i]?) ∧
    (∀ (ms : List EncodedMethod) (method_ids : List MethodIdItem),
       (∀ i, i < ms.length → deltaSumM ms i < method_ids.length) →
       ∃ L, resolveMethodSeq method_ids 0 ms = .ok L ∧ L.length = ms.length ∧
         ∀ i, i < ms.length → L[i]? = method_ids[deltaSumM ms i]?) ∧
    (∀ (cd : ClassDataItem) (field_ids : List FieldIdItem)
       (method_ids : List MethodIdItem),
       resolveClassData cd field_ids method_ids =
         (resolveFieldSeq field_ids 0 cd.static_fields,
          resolveFieldSeq field_ids 0 cd.instance_fields,
          resolveMethodSeq method_ids 0 cd.direct_mehtods,
          resolveMethodSeq method_ids 0 cd.virtual_methods)) := by
  refine ⟨classDataItem_encode, ?_, ?_, fun cd fids mids => rfl⟩
  · intro fs fids h
    obtain ⟨L, h1, h2, h3⟩ := resolveFieldSeq_spec fs fids 0 (fun i hi => by
      rw [Nat.zero_add]
      exact h i hi)
    exact ⟨L, h1, h2, fun i hi => by rw [h3 i hi, Nat.zero_add]⟩
  · intro ms mids h
    obtain ⟨L, h1, h2, h3⟩ := resolveMethodSeq_spec ms mids 0 (fun i hi => by
      rw [Nat.zero_add]
      exact h i hi)
    exact ⟨L, h1, h2, fun i hi => by rw [h3 i hi, Nat.zero_add]⟩

theorem c3_class_data_delta_decoding_witness :
    classDataItem (encClassData [(1, 8)] [] [(2, 1, 0)] []) =
      .ok { static_fields_size := mkUlebOf 1, instance_fields_size := mkUlebOf 0,
            direct_mehtods_size := mkUlebOf 1, virtual_methods_size := mkUlebOf 0,
            static_fields := [mkEncodedField (1, 8)], instance_fields := [],
            direct_mehtods := [mkEncodedMethod (2, 1, 0)], virtual_methods := [] } :=
  c3_class_data_delta_decoding.1 [(1, 8)] [] [(2, 1, 0)] []
    (by decide) (by decide) (by decide) (by decide)
    (by decide) (by decide) (by decide) (by decide)
